import Mathlib

/-!
# A 16-bit-instruction / 8-bit-datapath processor simulator with a 3-stage pipeline

Shallow embedding of `src/main.c`.

Conventions of the embedding:

* `int8_t` values are `Int`s in `-128..127`; conversion to `int8_t` is `to_int8`
  (two's-complement wrap), conversion to `uint8_t` is `to_uint8`, conversion to
  `uint16_t` is `to_uint16`.
* `uint8_t` / `uint16_t` values (opcodes, register indices, instruction words, the
  program counter) are `Nat`s.
* Arrays are total functions from indices; every array access of the source is
  guarded in the embedding by the array bound, and an access outside the array
  (undefined behaviour in C) makes the operation return `none`.
* The decoder does produce two inputs on which C leaves the execute stage open: a
  SAL or SAR shift count of 32..63 and an LDR or STR index of -32..-1. For these
  `execute_instruction_on`, `cycle_body_on`, `cycle_loop_on` and `run_pipeline_on`
  run the same code on a `Platform`, which supplies the shifted value, the byte
  read and the effect of the write; wherever `execute_instruction`, `cycle_body`
  and `cycle_loop` yield a result, they yield the same.
* Bitwise operators applied to (promoted) signed `int` operands go through the
  32-bit two's-complement pattern (`int_bits` / `int_of_bits`).
* Fields of a `DecodedInstruction` that the decoder leaves unassigned keep the
  indeterminate contents of the local variable, passed explicitly as `junk`.
* `printf` calls have no effect on the machine state and are dropped.
-/

namespace MipsSim

/-! ## C integer conversions and operators -/

/-- Conversion of an `int` to `int8_t` (two's-complement wrap). -/
def to_int8 (x : Int) : Int := (x + 128) % 256 - 128

/-- Conversion of an `int` to `uint8_t`. -/
def to_uint8 (x : Int) : Nat := (x % 256).toNat

/-- Conversion of an `int` to `uint16_t`. -/
def to_uint16 (x : Int) : Nat := (x % 65536).toNat

/-- The 32-bit two's-complement pattern of an `int`. -/
def int_bits (x : Int) : Nat := (x % 4294967296).toNat

/-- The `int` denoted by a 32-bit two's-complement pattern. -/
def int_of_bits (n : Nat) : Int :=
  if n % 4294967296 < 2147483648 then ((n % 4294967296 : Nat) : Int)
  else ((n % 4294967296 : Nat) : Int) - 4294967296

/-- The C operator `&` on `int`. -/
def int_and (a b : Int) : Int := int_of_bits (int_bits a &&& int_bits b)

/-- The C operator `|` on `int`. -/
def int_or (a b : Int) : Int := int_of_bits (int_bits a ||| int_bits b)

/-- The C operator `^` on `int`. -/
def int_xor (a b : Int) : Int := int_of_bits (int_bits a ^^^ int_bits b)

/-- The C operator `<<` on `int` for a shift count below 32 (two's-complement
shift of the 32-bit pattern, as compiled on every mainstream target). -/
def int_shl (a : Int) (s : Nat) : Int := int_of_bits (int_bits a <<< s)

/-- The C operator `>>` on `int` for a shift count below 32 (arithmetic shift). -/
def int_shr (a : Int) (s : Nat) : Int := a / 2 ^ s

/-! ## Sizes and constants -/

def INSTRUCTION_MEMORY_SIZE : Nat := 1024
def DATA_MEMORY_SIZE : Nat := 2048
def NOP_INSTR : Nat := 0xFFFF
def NUM_GPRS : Nat := 64
def INT32_MAX : Int := 2147483647

/-! ## Data model -/

/-- Status register: five one-bit fields. -/
structure SREG_t where
  C : Nat
  V : Nat
  N : Nat
  S : Nat
  Z : Nat
deriving DecidableEq, Repr

structure DecodedInstruction where
  opcode : Nat
  r1 : Nat
  r2 : Nat
  immshift : Nat
  imm : Int
deriving DecidableEq, Repr

/-- The global variables of the program. -/
structure Machine where
  instruction_memory : Nat → Nat
  data_memory : Nat → Int
  skipped : Int
  GPR : Nat → Int
  SREG : SREG_t
  PC : Nat
  IF_buffer : Nat
  ID_buffer : Nat
  EX_buffer : DecodedInstruction

/-- Array store `a[i] = v`. -/
def store {α : Type} (a : Nat → α) (i : Nat) (v : α) : Nat → α :=
  fun j => if j = i then v else a j

/-! ## Memory loading -/

def load_instruction (m : Machine) (address value : Nat) : Machine :=
  if address < INSTRUCTION_MEMORY_SIZE then
    { m with instruction_memory := store m.instruction_memory address value }
  else m

def load_data (m : Machine) (address value : Nat) : Machine :=
  if address < DATA_MEMORY_SIZE then
    { m with data_memory := store m.data_memory address (to_int8 value) }
  else m

/-! ## Flag updates -/

def updateCarryFlag (sreg : SREG_t) (operand1 operand2 : Nat) : SREG_t :=
  let result := (operand1 + operand2) % 65536
  { sreg with C := if result > 0xFF then 1 else 0 }

def updateOverflowFlag (sreg : SREG_t) (operand1 operand2 result : Int) : SREG_t :=
  let sign1 := int_and (int_shr operand1 7) 1
  let sign2 := int_and (int_shr operand2 7) 1
  let signR := int_and (int_shr result 7) 1
  { sreg with V := if sign1 = sign2 ∧ sign1 ≠ signR then 1 else 0 }

def updateNegativeFlag (sreg : SREG_t) (result : Int) : SREG_t :=
  if int_and result 128 ≠ 0 then { sreg with N := 1 } else { sreg with N := 0 }

def updateSignFlag (sreg : SREG_t) : SREG_t :=
  { sreg with S := (sreg.N ^^^ sreg.V) % 2 }

def updateZeroFlag (sreg : SREG_t) (result : Int) : SREG_t :=
  if result = 0 then { sreg with Z := 1 } else { sreg with Z := 0 }

/-! ## Decoder -/

def OPCODE (instr : Nat) : Nat := (instr >>> 12) &&& 15
def R1_INDEX (instr : Nat) : Nat := (instr >>> 6) &&& 63
def R2_INDEX (instr : Nat) : Nat := instr &&& 63
def IMM_VALUE (instr : Nat) : Nat := instr &&& 63

/-- The decoder. `junk` is the indeterminate initial content of the local
`decoded`; fields that are not assigned keep it. -/
def decode_instruction (junk : DecodedInstruction) (instruction : Nat) : DecodedInstruction :=
  if instruction = NOP_INSTR then
    { junk with opcode := 0xFF, r1 := 0, r2 := 0, imm := 0 }
  else
    let opcode := OPCODE instruction
    let r1 := R1_INDEX instruction
    let r2 := R2_INDEX instruction
    let immt := IMM_VALUE instruction
    if opcode = 8 ∨ opcode = 9 then
      { junk with opcode := opcode, r1 := r1, r2 := r2, immshift := immt % 256 }
    else if immt &&& 32 ≠ 0 then
      { junk with opcode := opcode, r1 := r1, r2 := r2, imm := to_int8 ((immt ||| 192 : Nat) : Int) }
    else
      { junk with opcode := opcode, r1 := r1, r2 := r2, imm := to_int8 ((immt &&& 63 : Nat) : Int) }

/-! ## Execute stage -/

/-- One instruction in the EX stage. The two pointer arguments of the source
always point to the globals `IF_buffer` and `ID_buffer`. `none` is undefined
behaviour: an index outside `GPR` or `data_memory`, or a shift count of at least
the width of `int`. -/
def execute_instruction (instruction : DecodedInstruction) (m : Machine) : Option Machine :=
  let opcode := instruction.opcode
  let r1 := instruction.r1
  let r2 := instruction.r2
  let imm := instruction.imm
  let immshift := instruction.immshift
  match opcode with
  | 0 => -- ADD
    if r1 < NUM_GPRS ∧ r2 < NUM_GPRS then
      let result := to_int8 (m.GPR r1 + m.GPR r2)
      let sreg := updateCarryFlag m.SREG (to_uint8 (m.GPR r1)) (to_uint8 (m.GPR r2))
      let sreg := updateOverflowFlag sreg (m.GPR r1) (m.GPR r2) result
      let gpr := store m.GPR r1 result
      let sreg := updateNegativeFlag sreg result
      let sreg := updateZeroFlag sreg result
      let sreg := updateSignFlag sreg
      some { m with GPR := gpr, SREG := sreg }
    else none
  | 1 => -- SUB
    if r1 < NUM_GPRS ∧ r2 < NUM_GPRS then
      let result := to_int8 (m.GPR r1 - m.GPR r2)
      let gpr := store m.GPR r1 result
      let sreg := updateOverflowFlag m.SREG (gpr r1) (gpr r2) result
      let sreg := updateNegativeFlag sreg result
      let sreg := updateZeroFlag sreg result
      let sreg := updateSignFlag sreg
      some { m with GPR := gpr, SREG := sreg }
    else none
  | 2 => -- MUL
    if r1 < NUM_GPRS ∧ r2 < NUM_GPRS then
      let result := to_int8 (m.GPR r1 * m.GPR r2)
      let gpr := store m.GPR r1 result
      let sreg := updateNegativeFlag m.SREG result
      let sreg := updateZeroFlag sreg result
      some { m with GPR := gpr, SREG := sreg }
    else none
  | 3 => -- MOVI
    if r1 < NUM_GPRS then
      some { m with GPR := store m.GPR r1 imm }
    else none
  | 4 => -- BEQZ
    if r1 < NUM_GPRS then
      if m.GPR r1 = 0 then
        if imm > 2 then
          some { m with skipped := 2, PC := to_uint16 ((m.PC : Int) + imm - 2) }
        else
          some { m with skipped := imm }
      else some m
    else none
  | 5 => -- ANDI
    if r1 < NUM_GPRS then
      let result := to_int8 (int_and (m.GPR r1) imm)
      let gpr := store m.GPR r1 result
      let sreg := updateNegativeFlag m.SREG result
      let sreg := updateZeroFlag sreg result
      some { m with GPR := gpr, SREG := sreg }
    else none
  | 6 => -- EOR
    if r1 < NUM_GPRS ∧ r2 < NUM_GPRS then
      let result := to_int8 (int_xor (m.GPR r1) (m.GPR r2))
      let gpr := store m.GPR r1 result
      let sreg := updateNegativeFlag m.SREG result
      let sreg := updateZeroFlag sreg result
      some { m with GPR := gpr, SREG := sreg }
    else none
  | 7 => -- BR
    if r1 < NUM_GPRS ∧ r2 < NUM_GPRS then
      some { m with PC := to_uint16 (int_or (int_shl (m.GPR r1) 8) (m.GPR r2)),
                    IF_buffer := NOP_INSTR, ID_buffer := NOP_INSTR }
    else none
  | 8 => -- SAL
    if r1 < NUM_GPRS ∧ immshift < 32 then
      let result := to_int8 (int_shl (m.GPR r1) immshift)
      let gpr := store m.GPR r1 result
      let sreg := updateNegativeFlag m.SREG result
      let sreg := updateZeroFlag sreg result
      some { m with GPR := gpr, SREG := sreg }
    else none
  | 9 => -- SAR
    if r1 < NUM_GPRS ∧ immshift < 32 then
      let result := to_int8 (int_shr (m.GPR r1) immshift)
      let gpr := store m.GPR r1 result
      let sreg := updateNegativeFlag m.SREG result
      let sreg := updateZeroFlag sreg result
      some { m with GPR := gpr, SREG := sreg }
    else none
  | 10 => -- LDR
    if r1 < NUM_GPRS ∧ 0 ≤ imm ∧ imm < (DATA_MEMORY_SIZE : Int) then
      some { m with GPR := store m.GPR r1 (m.data_memory imm.toNat),
                    PC := (m.PC + 1) % 65536 }
    else none
  | 11 => -- STR
    if r1 < NUM_GPRS ∧ 0 ≤ imm ∧ imm < (DATA_MEMORY_SIZE : Int) then
      some { m with data_memory := store m.data_memory imm.toNat (m.GPR r1) }
    else none
  | _ => some m

/-! ## Fetch stage -/

def fetch_instruction (m : Machine) : Nat × Machine :=
  if m.PC < INSTRUCTION_MEMORY_SIZE ∧ m.instruction_memory m.PC ≠ 0 then
    (m.instruction_memory m.PC, { m with PC := (m.PC + 1) % 65536 })
  else (NOP_INSTR, m)

/-! ## Pipeline scheduler -/

/-- The body of the cycle loop of `run_pipeline`, on the globals and the local
`remaining`. -/
def cycle_body (junk : DecodedInstruction) (m : Machine) (remaining : Int) :
    Option (Machine × Int) :=
  let m : Machine := { m with EX_buffer := decode_instruction junk m.ID_buffer }
  let m : Machine := { m with ID_buffer := m.IF_buffer }
  let f : Nat × Machine := fetch_instruction m
  let m : Machine := { f.2 with IF_buffer := f.1 }
  let remaining : Int :=
    if m.IF_buffer = NOP_INSTR then
      (if remaining = INT32_MAX then 2 else remaining) - 1
    else remaining
  if m.skipped > 0 then
    some ({ m with skipped := m.skipped - 1 }, remaining)
  else
    let ex_instr := m.EX_buffer
    if ex_instr.opcode = 0xFF then some (m, remaining)
    else (execute_instruction ex_instr m).map (fun m1 => (m1, remaining))

/-- Outcome of running the cycle loop with a bound on the number of cycles. -/
inductive RunResult where
  | halted (m : Machine) (cycles : Nat)
  | undefined
  | out_of_fuel

/-- The cycle loop `for (cycle = 0; remaining > 0; cycle++)`. `junk c` is the
indeterminate content seen by the decoder in cycle `c`. -/
def cycle_loop (junk : Nat → DecodedInstruction) :
    Nat → Nat → Machine → Int → RunResult
  | 0, _, _, _ => RunResult.out_of_fuel
  | fuel + 1, cycle, m, remaining =>
    if remaining > 0 then
      match cycle_body (junk cycle) m remaining with
      | none => RunResult.undefined
      | some (m1, remaining1) => cycle_loop junk fuel (cycle + 1) m1 remaining1
    else RunResult.halted m cycle

/-- The initialisation of `run_pipeline` followed by its cycle loop. -/
def run_pipeline (junk : Nat → DecodedInstruction) (fuel : Nat) (m : Machine) : RunResult :=
  let m : Machine := { m with skipped := 0 }
  let dummy : DecodedInstruction := { opcode := 0xFF, r1 := 0, r2 := 0, immshift := 0, imm := 0 }
  let m : Machine := { m with IF_buffer := NOP_INSTR }
  let m : Machine := { m with ID_buffer := NOP_INSTR }
  let m : Machine := { m with EX_buffer := dummy }
  cycle_loop junk fuel 0 m INT32_MAX

/-- The state after `resetAll` in a freshly started program (all globals are
zero-initialised). -/
def resetAll : Machine :=
  { instruction_memory := fun _ => 0
    data_memory := fun _ => 0
    skipped := 0
    GPR := fun _ => 0
    SREG := { C := 0, V := 0, N := 0, S := 0, Z := 0 }
    PC := 0
    IF_buffer := 0
    ID_buffer := 0
    EX_buffer := { opcode := 0, r1 := 0, r2 := 0, immshift := 0, imm := 0 } }

/-- The unconditional first part of a cycle: `EX <- decode(ID)`, `ID <- IF`,
`IF <- fetch()`. -/
def shift_and_fetch (junk : DecodedInstruction) (m : Machine) : Machine :=
  let m : Machine := { m with EX_buffer := decode_instruction junk m.ID_buffer }
  let m : Machine := { m with ID_buffer := m.IF_buffer }
  let f : Nat × Machine := fetch_instruction m
  { f.2 with IF_buffer := f.1 }

/-- The update of the drain counter `remaining` after the fetch of a cycle. -/
def next_remaining (m : Machine) (remaining : Int) : Int :=
  if m.IF_buffer = NOP_INSTR then
    (if remaining = INT32_MAX then 2 else remaining) - 1
  else remaining

/-! ## Sequential execution and sample states -/

/-- Execution of decoded instructions one after another, in list order. -/
def execute_program : List DecodedInstruction → Machine → Option Machine
  | [], m => some m
  | d :: ds, m =>
    match execute_instruction d m with
    | none => none
    | some m1 => execute_program ds m1

/-- Reference definition of BEQZ, following the words of the specification: a
non-zero register changes nothing; a zero register with `imm > 2` sets the skip
counter to 2 and PC to `PC + imm - 2` modulo 2^16; a zero register with `imm <= 2`
sets the skip counter to the raw `imm` and leaves PC. -/
def beqz_reference (m : Machine) (r1 : Nat) (imm : Int) : Machine :=
  if m.GPR r1 ≠ 0 then m
  else if imm > 2 then
    { m with skipped := 2, PC := (((m.PC : Int) + imm - 2) % 65536).toNat }
  else { m with skipped := imm }

/-- The reset state with `R1 = a` and `R2 = b`. -/
def with_R1_R2 (a b : Int) : Machine :=
  { resetAll with GPR := store (store resetAll.GPR 1 a) 2 b }

/-- The reset state with the given words loaded at addresses 0, 1, 2, ... -/
def with_program (ws : List Nat) : Machine :=
  { resetAll with instruction_memory := fun i => ws.getD i 0 }

/-- The program `BEQZ R1, 2; MOVI R3, 1; MOVI R4, 1; MOVI R5, 1` at the start of
the cycle in which the BEQZ is executed: the BEQZ is in ID, the first MOVI in IF,
and PC is 2. -/
def beqz_sample : Machine :=
  { with_program [0x4042, 0x30C1, 0x3101, 0x3141] with
      PC := 2, ID_buffer := 0x4042, IF_buffer := 0x30C1 }

/-- The reset state with register `r` holding `v`. -/
def with_reg (r : Nat) (v : Int) : Machine :=
  { resetAll with GPR := store resetAll.GPR r v }

/-- The final state of a run, if it halted. -/
def final_state : RunResult → Option Machine
  | RunResult.halted m _ => some m
  | _ => none

/-- The number of cycles of a run, if it halted. -/
def final_cycles : RunResult → Option Nat
  | RunResult.halted _ c => some c
  | _ => none

/-- Two machines with the same registers, flags and data memory. -/
def same_core (s t : Machine) : Prop :=
  s.GPR = t.GPR ∧ s.SREG = t.SREG ∧ s.data_memory = t.data_memory

/-- A word of a straight-line program: not a fetch terminator, not the sentinel,
not BEQZ, BR or LDR, and with an STR address in range. -/
def straight_line_word (w : Nat) : Prop :=
  w ≠ 0 ∧ w ≠ 0xFFFF ∧ OPCODE w ≠ 4 ∧ OPCODE w ≠ 7 ∧ OPCODE w ≠ 10 ∧
  (OPCODE w = 11 → IMM_VALUE w < 32)

/-- The program `MOVI R1, 5; MOVI R2, 3; ADD R1, R2; SUB R1, R2; MUL R1, R2;
ANDI R1, 2; EOR R1, R2; MOVI R3, 7; STR R3, [6]; SAL R3, 1; SAL R3, 33; SAR R2, 32`. -/
def straight_line_sample : List Nat :=
  [0x3045, 0x3083, 0x0042, 0x1042, 0x2042, 0x5042, 0x6042, 0x30C7, 0xB0C6, 0x80C1,
   0x80E1, 0x90A0]

/-- Registers `R0..R(k-1)` of the final state of a run, if it halted. -/
def final_registers (k : Nat) : RunResult → Option (List Int)
  | RunResult.halted m _ => some ((List.range k).map m.GPR)
  | _ => none

/-! ## Execution on a platform -/

/-- What a platform does where C leaves the behaviour of the source open: the value
of a shift of an `int` by 32 or more, the byte found at an index outside
`data_memory`, and the globals after a byte is written at such an index. A write
outside `data_memory` may change any memory cell, register, counter or buffer; the
one thing assumed of it is that it does not land in the status register. -/
structure Platform where
  shl_wide : Int → Nat → Int
  shr_wide : Int → Nat → Int
  load_outside : Machine → Int → Int
  store_outside : Machine → Int → Int → Machine
  store_outside_SREG : ∀ (m : Machine) (i v : Int), (store_outside m i v).SREG = m.SREG

/-- One instruction in the EX stage as it runs on a platform: SAL and SAR with a
shift count of 32 or more and LDR and STR with an index outside `data_memory` do
what the platform does; everything else is `execute_instruction`. `none` is left
only for a register index outside `GPR`, which the decoder never produces. -/
def execute_instruction_on (p : Platform) (instruction : DecodedInstruction) (m : Machine) :
    Option Machine :=
  let opcode := instruction.opcode
  let r1 := instruction.r1
  let imm := instruction.imm
  let immshift := instruction.immshift
  match opcode with
  | 8 => -- SAL
    if r1 < NUM_GPRS then
      let shifted :=
        if immshift < 32 then int_shl (m.GPR r1) immshift else p.shl_wide (m.GPR r1) immshift
      let result := to_int8 shifted
      let gpr := store m.GPR r1 result
      let sreg := updateNegativeFlag m.SREG result
      let sreg := updateZeroFlag sreg result
      some { m with GPR := gpr, SREG := sreg }
    else none
  | 9 => -- SAR
    if r1 < NUM_GPRS then
      let shifted :=
        if immshift < 32 then int_shr (m.GPR r1) immshift else p.shr_wide (m.GPR r1) immshift
      let result := to_int8 shifted
      let gpr := store m.GPR r1 result
      let sreg := updateNegativeFlag m.SREG result
      let sreg := updateZeroFlag sreg result
      some { m with GPR := gpr, SREG := sreg }
    else none
  | 10 => -- LDR
    if r1 < NUM_GPRS then
      let cell :=
        if 0 ≤ imm ∧ imm < (DATA_MEMORY_SIZE : Int) then m.data_memory imm.toNat
        else to_int8 (p.load_outside m imm)
      some { m with GPR := store m.GPR r1 cell, PC := (m.PC + 1) % 65536 }
    else none
  | 11 => -- STR
    if r1 < NUM_GPRS then
      if 0 ≤ imm ∧ imm < (DATA_MEMORY_SIZE : Int) then
        some { m with data_memory := store m.data_memory imm.toNat (m.GPR r1) }
      else some (p.store_outside m imm (m.GPR r1))
    else none
  | _ => execute_instruction instruction m

/-- The body of the cycle loop of `run_pipeline` on a platform. -/
def cycle_body_on (p : Platform) (junk : DecodedInstruction) (m : Machine) (remaining : Int) :
    Option (Machine × Int) :=
  let m : Machine := { m with EX_buffer := decode_instruction junk m.ID_buffer }
  let m : Machine := { m with ID_buffer := m.IF_buffer }
  let f : Nat × Machine := fetch_instruction m
  let m : Machine := { f.2 with IF_buffer := f.1 }
  let remaining : Int :=
    if m.IF_buffer = NOP_INSTR then
      (if remaining = INT32_MAX then 2 else remaining) - 1
    else remaining
  if m.skipped > 0 then
    some ({ m with skipped := m.skipped - 1 }, remaining)
  else
    let ex_instr := m.EX_buffer
    if ex_instr.opcode = 0xFF then some (m, remaining)
    else (execute_instruction_on p ex_instr m).map (fun m1 => (m1, remaining))

/-- The cycle loop of `run_pipeline` on a platform. -/
def cycle_loop_on (p : Platform) (junk : Nat → DecodedInstruction) :
    Nat → Nat → Machine → Int → RunResult
  | 0, _, _, _ => RunResult.out_of_fuel
  | fuel + 1, cycle, m, remaining =>
    if remaining > 0 then
      match cycle_body_on p (junk cycle) m remaining with
      | none => RunResult.undefined
      | some (m1, remaining1) => cycle_loop_on p junk fuel (cycle + 1) m1 remaining1
    else RunResult.halted m cycle

/-- The function `run_pipeline` on a platform: its initialisation followed by its
cycle loop. -/
def run_pipeline_on (p : Platform) (junk : Nat → DecodedInstruction) (fuel : Nat)
    (m : Machine) : RunResult :=
  let m : Machine := { m with skipped := 0 }
  let dummy : DecodedInstruction := { opcode := 0xFF, r1 := 0, r2 := 0, immshift := 0, imm := 0 }
  let m : Machine := { m with IF_buffer := NOP_INSTR }
  let m : Machine := { m with ID_buffer := NOP_INSTR }
  let m : Machine := { m with EX_buffer := dummy }
  cycle_loop_on p junk fuel 0 m INT32_MAX

/-- Execution of decoded instructions one after another, in list order, on a
platform. -/
def execute_program_on (p : Platform) : List DecodedInstruction → Machine → Option Machine
  | [], m => some m
  | d :: ds, m =>
    match execute_instruction_on p d m with
    | none => none
    | some m1 => execute_program_on p ds m1

/-- A platform that uses the low five bits of a shift count, as x86 does, reads
zero outside `data_memory` and drops a write there. -/
def masking_platform : Platform where
  shl_wide := fun v s => int_shl v (s % 32)
  shr_wide := fun v s => int_shr v (s % 32)
  load_outside := fun _ _ => 0
  store_outside := fun m _ _ => m
  store_outside_SREG := fun _ _ _ => rfl

/-! ## Facts about the C integer operators -/

theorem OPCODE_eq (w : Nat) : OPCODE w = w / 4096 % 16 := by
  unfold OPCODE
  rw [Nat.shiftRight_eq_div_pow]
  exact Nat.and_pow_two_sub_one_eq_mod (w / 2 ^ 12) 4

theorem R1_INDEX_eq (w : Nat) : R1_INDEX w = w / 64 % 64 := by
  unfold R1_INDEX
  rw [Nat.shiftRight_eq_div_pow]
  exact Nat.and_pow_two_sub_one_eq_mod (w / 2 ^ 6) 6

theorem R2_INDEX_eq (w : Nat) : R2_INDEX w = w % 64 := by
  unfold R2_INDEX
  exact Nat.and_pow_two_sub_one_eq_mod w 6

theorem IMM_VALUE_eq (w : Nat) : IMM_VALUE w = w % 64 := by
  unfold IMM_VALUE
  exact Nat.and_pow_two_sub_one_eq_mod w 6

/-- The decoder's treatment of a 6-bit field, checked on all 64 fields. -/
theorem field_sign_extend : ∀ f : Nat, f < 64 →
    (f &&& 32 ≠ 0 ↔ 32 ≤ f) ∧ f &&& 63 = f ∧ f % 256 = f ∧
    (32 ≤ f → to_int8 ((f ||| 192 : Nat) : Int) = (f : Int) - 64) ∧
    (f < 32 → to_int8 ((f : Nat) : Int) = (f : Int)) := by
  decide

theorem to_int8_range (x : Int) : -128 ≤ to_int8 x ∧ to_int8 x ≤ 127 := by
  unfold to_int8
  omega

theorem to_int8_of_range (x : Int) (h : -128 ≤ x ∧ x ≤ 127) : to_int8 x = x := by
  unfold to_int8
  omega

theorem int_shr_seven (x : Int) (h : -128 ≤ x ∧ x ≤ 127) :
    int_shr x 7 = if x < 0 then -1 else 0 := by
  unfold int_shr
  have h2 : (2 : Int) ^ 7 = 128 := by norm_num
  rw [h2]
  split <;> omega

theorem sign_bit_eq (x : Int) (h : -128 ≤ x ∧ x ≤ 127) :
    int_and (int_shr x 7) 1 = if x < 0 then 1 else 0 := by
  rw [int_shr_seven x h]
  split
  · decide
  · decide

set_option maxRecDepth 100000 in
theorem bit7_table : ∀ n : Nat, n < 256 →
    (int_and ((n : Int) - 128) 128 ≠ 0 ↔ (n : Int) - 128 < 0) := by
  decide

theorem bit7_eq (x : Int) (h : -128 ≤ x ∧ x ≤ 127) : int_and x 128 ≠ 0 ↔ x < 0 := by
  have ht := bit7_table (x + 128).toNat (by omega)
  have hx : (((x + 128).toNat : Nat) : Int) - 128 = x := by omega
  rw [hx] at ht
  exact ht

theorem and_mod_two_pow (x y k : Nat) : (x &&& y) % 2 ^ k = (x % 2 ^ k) &&& (y % 2 ^ k) := by
  apply Nat.eq_of_testBit_eq
  intro i
  simp only [Nat.testBit_mod_two_pow, Nat.testBit_and]
  by_cases h : i < k <;> simp [h]

theorem xor_mod_two_pow (x y k : Nat) : (x ^^^ y) % 2 ^ k = (x % 2 ^ k) ^^^ (y % 2 ^ k) := by
  apply Nat.eq_of_testBit_eq
  intro i
  simp only [Nat.testBit_mod_two_pow, Nat.testBit_xor]
  by_cases h : i < k <;> simp [h]

theorem or_mod_two_pow (x y k : Nat) : (x ||| y) % 2 ^ k = (x % 2 ^ k) ||| (y % 2 ^ k) := by
  apply Nat.eq_of_testBit_eq
  intro i
  simp only [Nat.testBit_mod_two_pow, Nat.testBit_or]
  by_cases h : i < k <;> simp [h]

theorem to_uint8_to_int8 (x : Int) : to_uint8 (to_int8 x) = to_uint8 x := by
  unfold to_uint8 to_int8
  omega

theorem to_uint8_int_of_bits (n : Nat) : to_uint8 (int_of_bits n) = n % 256 := by
  unfold to_uint8 int_of_bits
  split <;> omega

theorem int_bits_mod_256 (a : Int) : int_bits a % 256 = to_uint8 a := by
  unfold int_bits to_uint8
  omega

/-- The byte pattern of `(int8_t)(a & b)` is the bitwise AND of the byte patterns. -/
theorem to_uint8_int_and (a b : Int) :
    to_uint8 (to_int8 (int_and a b)) = to_uint8 a &&& to_uint8 b := by
  rw [to_uint8_to_int8]
  unfold int_and
  rw [to_uint8_int_of_bits]
  have h := and_mod_two_pow (int_bits a) (int_bits b) 8
  norm_num at h
  rw [h, int_bits_mod_256, int_bits_mod_256]

/-- The byte pattern of `(int8_t)(a ^ b)` is the bitwise XOR of the byte patterns. -/
theorem to_uint8_int_xor (a b : Int) :
    to_uint8 (to_int8 (int_xor a b)) = to_uint8 a ^^^ to_uint8 b := by
  rw [to_uint8_to_int8]
  unfold int_xor
  rw [to_uint8_int_of_bits]
  have h := xor_mod_two_pow (int_bits a) (int_bits b) 8
  norm_num at h
  rw [h, int_bits_mod_256, int_bits_mod_256]

theorem updateOverflowFlag_same (sreg : SREG_t) (a b : Int) :
    updateOverflowFlag sreg a b a = { sreg with V := 0 } := by
  unfold updateOverflowFlag
  simp

theorem store_same {α : Type} (a : Nat → α) (i : Nat) (v : α) : store a i v i = v := by
  simp [store]

theorem store_other {α : Type} (a : Nat → α) (i j : Nat) (v : α) (h : j ≠ i) :
    store a i v j = a j := by
  simp [store, h]

/-! ## Flag updates in closed form -/

theorem updateNegativeFlag_eq (sreg : SREG_t) (x : Int) (h : -128 ≤ x ∧ x ≤ 127) :
    updateNegativeFlag sreg x = { sreg with N := if x < 0 then 1 else 0 } := by
  unfold updateNegativeFlag
  by_cases hx : x < 0
  · rw [if_pos ((bit7_eq x h).mpr hx), if_pos hx]
  · rw [if_neg (fun hc => hx ((bit7_eq x h).mp hc)), if_neg hx]

theorem updateZeroFlag_eq (sreg : SREG_t) (x : Int) :
    updateZeroFlag sreg x = { sreg with Z := if x = 0 then 1 else 0 } := by
  unfold updateZeroFlag
  split <;> rfl

theorem updateOverflowFlag_eq (sreg : SREG_t) (a b r : Int)
    (ha : -128 ≤ a ∧ a ≤ 127) (hb : -128 ≤ b ∧ b ≤ 127) (hr : -128 ≤ r ∧ r ≤ 127) :
    updateOverflowFlag sreg a b r
      = { sreg with V := if (a < 0 ↔ b < 0) ∧ ¬ (a < 0 ↔ r < 0) then 1 else 0 } := by
  unfold updateOverflowFlag
  simp only [sign_bit_eq a ha, sign_bit_eq b hb, sign_bit_eq r hr]
  by_cases h1 : a < 0 <;> by_cases h2 : b < 0 <;> by_cases h3 : r < 0 <;> simp [h1, h2, h3]

theorem updateCarryFlag_eq (sreg : SREG_t) (a b : Int) :
    updateCarryFlag sreg (to_uint8 a) (to_uint8 b)
      = { sreg with C := if a % 256 + b % 256 > 255 then 1 else 0 } := by
  unfold updateCarryFlag to_uint8
  have h : ((a % 256).toNat + (b % 256).toNat) % 65536 > 255 ↔ a % 256 + b % 256 > 255 := by
    omega
  by_cases hc : a % 256 + b % 256 > 255
  · simp only [if_pos hc, if_pos (h.mpr hc)]
  · simp only [if_neg hc, if_neg (fun hx => hc (h.mp hx))]

/-! ## Closed forms of the cases of `execute_instruction` -/

/-- Closed form of the ADD case of `execute_instruction`. -/
theorem execute_ADD_eq (m : Machine) (r1 r2 immshift : Nat) (imm : Int)
    (h1 : r1 < 64) (h2 : r2 < 64)
    (ha : -128 ≤ m.GPR r1 ∧ m.GPR r1 ≤ 127) (hb : -128 ≤ m.GPR r2 ∧ m.GPR r2 ≤ 127) :
    execute_instruction ⟨0, r1, r2, immshift, imm⟩ m
      = some { m with
          GPR := store m.GPR r1 (to_int8 (m.GPR r1 + m.GPR r2))
          SREG :=
            { C := if m.GPR r1 % 256 + m.GPR r2 % 256 > 255 then 1 else 0
              V := if (m.GPR r1 < 0 ↔ m.GPR r2 < 0) ∧
                      ¬ (m.GPR r1 < 0 ↔ to_int8 (m.GPR r1 + m.GPR r2) < 0) then 1 else 0
              N := if to_int8 (m.GPR r1 + m.GPR r2) < 0 then 1 else 0
              S := ((if to_int8 (m.GPR r1 + m.GPR r2) < 0 then 1 else 0) ^^^
                    (if (m.GPR r1 < 0 ↔ m.GPR r2 < 0) ∧
                      ¬ (m.GPR r1 < 0 ↔ to_int8 (m.GPR r1 + m.GPR r2) < 0) then 1 else 0)) % 2
              Z := if to_int8 (m.GPR r1 + m.GPR r2) = 0 then 1 else 0 } } := by
  have hr := to_int8_range (m.GPR r1 + m.GPR r2)
  simp only [execute_instruction, NUM_GPRS]
  rw [if_pos ⟨h1, h2⟩]
  simp only [updateCarryFlag_eq, updateOverflowFlag_eq _ _ _ _ ha hb hr,
    updateNegativeFlag_eq _ _ hr, updateZeroFlag_eq, updateSignFlag]

/-- Unfolding of the SUB case: the overflow flag is computed after the write. -/
theorem execute_SUB_eq (m : Machine) (r1 r2 immshift : Nat) (imm : Int)
    (h1 : r1 < 64) (h2 : r2 < 64) :
    execute_instruction ⟨1, r1, r2, immshift, imm⟩ m
      = some { m with
          GPR := store m.GPR r1 (to_int8 (m.GPR r1 - m.GPR r2))
          SREG := updateSignFlag (updateZeroFlag (updateNegativeFlag
            { m.SREG with V := 0 } (to_int8 (m.GPR r1 - m.GPR r2)))
            (to_int8 (m.GPR r1 - m.GPR r2))) } := by
  simp only [execute_instruction, NUM_GPRS]
  rw [if_pos ⟨h1, h2⟩]
  simp only [store_same, updateOverflowFlag_same]

theorem execute_MUL_eq (m : Machine) (r1 r2 immshift : Nat) (imm : Int)
    (h1 : r1 < 64) (h2 : r2 < 64) :
    execute_instruction ⟨2, r1, r2, immshift, imm⟩ m
      = some { m with
          GPR := store m.GPR r1 (to_int8 (m.GPR r1 * m.GPR r2))
          SREG := updateZeroFlag (updateNegativeFlag m.SREG (to_int8 (m.GPR r1 * m.GPR r2)))
            (to_int8 (m.GPR r1 * m.GPR r2)) } := by
  simp only [execute_instruction, NUM_GPRS]
  rw [if_pos ⟨h1, h2⟩]

theorem execute_MOVI_eq (m : Machine) (r1 r2 immshift : Nat) (imm : Int) (h1 : r1 < 64) :
    execute_instruction ⟨3, r1, r2, immshift, imm⟩ m
      = some { m with GPR := store m.GPR r1 imm } := by
  simp only [execute_instruction, NUM_GPRS]
  rw [if_pos h1]

theorem execute_ANDI_eq (m : Machine) (r1 r2 immshift : Nat) (imm : Int) (h1 : r1 < 64) :
    execute_instruction ⟨5, r1, r2, immshift, imm⟩ m
      = some { m with
          GPR := store m.GPR r1 (to_int8 (int_and (m.GPR r1) imm))
          SREG := updateZeroFlag (updateNegativeFlag m.SREG (to_int8 (int_and (m.GPR r1) imm)))
            (to_int8 (int_and (m.GPR r1) imm)) } := by
  simp only [execute_instruction, NUM_GPRS]
  rw [if_pos h1]

theorem execute_EOR_eq (m : Machine) (r1 r2 immshift : Nat) (imm : Int)
    (h1 : r1 < 64) (h2 : r2 < 64) :
    execute_instruction ⟨6, r1, r2, immshift, imm⟩ m
      = some { m with
          GPR := store m.GPR r1 (to_int8 (int_xor (m.GPR r1) (m.GPR r2)))
          SREG := updateZeroFlag (updateNegativeFlag m.SREG
            (to_int8 (int_xor (m.GPR r1) (m.GPR r2))))
            (to_int8 (int_xor (m.GPR r1) (m.GPR r2))) } := by
  simp only [execute_instruction, NUM_GPRS]
  rw [if_pos ⟨h1, h2⟩]

/-- Every case of `execute_instruction` other than BEQZ, BR and LDR leaves the
program counter as it was. -/
theorem execute_PC_unchanged (d : DecodedInstruction) (m m1 : Machine)
    (h : execute_instruction d m = some m1)
    (h4 : d.opcode ≠ 4) (h7 : d.opcode ≠ 7) (h10 : d.opcode ≠ 10) : m1.PC = m.PC := by
  simp only [execute_instruction] at h
  split at h
  all_goals first
    | exact absurd (by assumption) h4
    | exact absurd (by assumption) h7
    | exact absurd (by assumption) h10
    | (split at h
       · cases h; rfl
       · cases h)
    | (cases h; rfl)

/-! ## The cycle loop: shared lemmas -/

/-- The loop body in terms of its two phases. -/
theorem cycle_body_eq (junk : DecodedInstruction) (m : Machine) (remaining : Int) :
    cycle_body junk m remaining
      = if (shift_and_fetch junk m).skipped > 0 then
          some ({ shift_and_fetch junk m with
                    skipped := (shift_and_fetch junk m).skipped - 1 },
                next_remaining (shift_and_fetch junk m) remaining)
        else if (shift_and_fetch junk m).EX_buffer.opcode = 0xFF then
          some (shift_and_fetch junk m, next_remaining (shift_and_fetch junk m) remaining)
        else
          (execute_instruction (shift_and_fetch junk m).EX_buffer
              (shift_and_fetch junk m)).map
            (fun m1 => (m1, next_remaining (shift_and_fetch junk m) remaining)) := by
  rfl

/-- The first phase of a cycle when the fetch finds an instruction. -/
theorem shift_and_fetch_hit (junk : DecodedInstruction) (m : Machine)
    (hpc : m.PC < 1024) (hw : m.instruction_memory m.PC ≠ 0) :
    shift_and_fetch junk m
      = { m with EX_buffer := decode_instruction junk m.ID_buffer
                 ID_buffer := m.IF_buffer
                 IF_buffer := m.instruction_memory m.PC
                 PC := m.PC + 1 } := by
  have h : (m.PC + 1) % 65536 = m.PC + 1 := Nat.mod_eq_of_lt (by omega)
  simp only [shift_and_fetch, fetch_instruction, INSTRUCTION_MEMORY_SIZE]
  rw [if_pos ⟨hpc, hw⟩]
  simp only [h]

/-- The first phase of a cycle touches neither registers, flags, data memory,
instruction memory nor the skip counter, and moves IF to ID. -/
theorem shift_and_fetch_frame (junk : DecodedInstruction) (m : Machine) :
    (shift_and_fetch junk m).GPR = m.GPR ∧
    (shift_and_fetch junk m).SREG = m.SREG ∧
    (shift_and_fetch junk m).data_memory = m.data_memory ∧
    (shift_and_fetch junk m).instruction_memory = m.instruction_memory ∧
    (shift_and_fetch junk m).skipped = m.skipped ∧
    (shift_and_fetch junk m).EX_buffer = decode_instruction junk m.ID_buffer ∧
    (shift_and_fetch junk m).ID_buffer = m.IF_buffer := by
  simp only [shift_and_fetch, fetch_instruction]
  split <;> exact ⟨rfl, rfl, rfl, rfl, rfl, rfl, rfl⟩

/-- A word other than the sentinel never decodes to the NOP tag. -/
theorem decode_opcode_ne_nop (junk : DecodedInstruction) (w : Nat) (hw : w ≠ 0xFFFF) :
    (decode_instruction junk w).opcode ≠ 0xFF := by
  have hlt : w / 4096 % 16 < 16 := Nat.mod_lt _ (by decide)
  have hw2 : ¬ (w = NOP_INSTR) := hw
  unfold decode_instruction
  rw [if_neg hw2]
  simp only [OPCODE_eq]
  split
  · show w / 4096 % 16 ≠ 255
    omega
  · split
    · show w / 4096 % 16 ≠ 255
      omega
    · show w / 4096 % 16 ≠ 255
      omega

/-- The word `0x4002 + 64 * r1` is `BEQZ r1, 2`. -/
theorem decode_BEQZ_two (junk : DecodedInstruction) (r1 : Nat) (h : r1 < 64) :
    decode_instruction junk (0x4002 + 64 * r1)
      = { junk with opcode := 4, r1 := r1, r2 := 2, imm := 2 } := by
  have hn : ¬ (0x4002 + 64 * r1 = NOP_INSTR) := by
    unfold NOP_INSTR
    omega
  have ho : (0x4002 + 64 * r1) / 4096 % 16 = 4 := by omega
  have hr : (0x4002 + 64 * r1) / 64 % 64 = r1 := by omega
  have hi : (0x4002 + 64 * r1) % 64 = 2 := by omega
  unfold decode_instruction
  rw [if_neg hn]
  simp only [OPCODE_eq, R1_INDEX_eq, R2_INDEX_eq, IMM_VALUE_eq, ho, hr, hi]
  rw [if_neg (by decide), if_neg (by decide)]
  rfl

/-- Unfolding of the BEQZ case. -/
theorem execute_BEQZ_eq (m : Machine) (d : DecodedInstruction)
    (hop : d.opcode = 4) (h1 : d.r1 < 64) :
    execute_instruction d m
      = some (if m.GPR d.r1 = 0 then
                (if d.imm > 2 then
                  { m with skipped := 2, PC := to_uint16 ((m.PC : Int) + d.imm - 2) }
                 else { m with skipped := d.imm })
              else m) := by
  simp only [execute_instruction, NUM_GPRS, hop]
  rw [if_pos h1]
  split
  · split <;> rfl
  · rfl

/-- A cycle whose fetch finds a word other than the sentinel leaves the drain
counter alone. -/
theorem next_remaining_hit (m : Machine) (remaining : Int) (h : m.IF_buffer ≠ 0xFFFF) :
    next_remaining m remaining = remaining := by
  have h2 : ¬ (m.IF_buffer = NOP_INSTR) := h
  unfold next_remaining
  rw [if_neg h2]

/-- The drain counter after a cycle that started before draining is positive. -/
theorem next_remaining_pos (m : Machine) : 0 < next_remaining m INT32_MAX := by
  unfold next_remaining INT32_MAX
  split <;> simp

/-- A cycle entered with a positive skip counter only shifts the pipeline and
decrements the counter. -/
theorem cycle_body_skipping (junk : DecodedInstruction) (m : Machine) (remaining : Int)
    (h : m.skipped > 0) :
    cycle_body junk m remaining
      = some ({ shift_and_fetch junk m with skipped := m.skipped - 1 },
              next_remaining (shift_and_fetch junk m) remaining) := by
  have hs : (shift_and_fetch junk m).skipped = m.skipped :=
    (shift_and_fetch_frame junk m).2.2.2.2.1
  rw [cycle_body_eq, hs, if_pos h]

/-- A cycle entered with a non-positive skip counter and a word other than the
sentinel in ID executes the decoding of that word. -/
theorem cycle_body_executing (junk : DecodedInstruction) (m : Machine) (remaining : Int)
    (h : m.skipped ≤ 0) (hw : m.ID_buffer ≠ 0xFFFF) :
    cycle_body junk m remaining
      = (execute_instruction (decode_instruction junk m.ID_buffer)
            (shift_and_fetch junk m)).map
          (fun m1 => (m1, next_remaining (shift_and_fetch junk m) remaining)) := by
  have hs : (shift_and_fetch junk m).skipped = m.skipped :=
    (shift_and_fetch_frame junk m).2.2.2.2.1
  have he : (shift_and_fetch junk m).EX_buffer = decode_instruction junk m.ID_buffer :=
    (shift_and_fetch_frame junk m).2.2.2.2.2.1
  rw [cycle_body_eq, hs, if_neg (by omega), he, if_neg (decode_opcode_ne_nop junk _ hw)]

/-- A skipping cycle whose fetch finds a word other than the sentinel: the
pipeline shifts, PC advances, the skip counter drops by one and nothing else
changes. -/
theorem cycle_body_skipping_hit (junk : DecodedInstruction) (m : Machine) (remaining : Int)
    (h : m.skipped > 0) (hpc : m.PC < 1024)
    (hw : m.instruction_memory m.PC ≠ 0 ∧ m.instruction_memory m.PC ≠ 0xFFFF) :
    ∃ m1 : Machine, cycle_body junk m remaining = some (m1, remaining) ∧
      m1.GPR = m.GPR ∧ m1.SREG = m.SREG ∧ m1.data_memory = m.data_memory ∧
      m1.instruction_memory = m.instruction_memory ∧ m1.skipped = m.skipped - 1 ∧
      m1.EX_buffer = decode_instruction junk m.ID_buffer ∧ m1.ID_buffer = m.IF_buffer ∧
      m1.IF_buffer = m.instruction_memory m.PC ∧ m1.PC = m.PC + 1 := by
  refine ⟨{ shift_and_fetch junk m with skipped := m.skipped - 1 }, ?_, ?_⟩
  · rw [cycle_body_skipping junk m remaining h,
      next_remaining_hit _ _ (by rw [shift_and_fetch_hit junk m hpc hw.1]; exact hw.2)]
  · rw [shift_and_fetch_hit junk m hpc hw.1]
    exact ⟨rfl, rfl, rfl, rfl, rfl, rfl, rfl, rfl, rfl⟩

/-- A skipping cycle entered before draining, whatever the fetch finds. -/
theorem cycle_body_skipping_any (junk : DecodedInstruction) (m : Machine)
    (h : m.skipped > 0) :
    ∃ (m1 : Machine) (remaining1 : Int),
      cycle_body junk m INT32_MAX = some (m1, remaining1) ∧ 0 < remaining1 ∧
      m1.GPR = m.GPR ∧ m1.SREG = m.SREG ∧ m1.data_memory = m.data_memory ∧
      m1.instruction_memory = m.instruction_memory ∧ m1.skipped = m.skipped - 1 ∧
      m1.EX_buffer = decode_instruction junk m.ID_buffer ∧ m1.ID_buffer = m.IF_buffer := by
  have hf := shift_and_fetch_frame junk m
  exact ⟨_, _, cycle_body_skipping junk m INT32_MAX h, next_remaining_pos _,
    hf.1, hf.2.1, hf.2.2.1, hf.2.2.2.1, rfl, hf.2.2.2.2.2.1, hf.2.2.2.2.2.2⟩

/-- An executing cycle: the decoding of the word in ID is executed on a machine
with the registers, flags, data memory and skip counter of the cycle's start. -/
theorem cycle_body_executing_any (junk : DecodedInstruction) (m : Machine) (remaining : Int)
    (h : m.skipped ≤ 0) (hw : m.ID_buffer ≠ 0xFFFF) :
    ∃ (m1 : Machine) (remaining1 : Int),
      cycle_body junk m remaining
        = (execute_instruction (decode_instruction junk m.ID_buffer) m1).map
            (fun x => (x, remaining1)) ∧
      m1.GPR = m.GPR ∧ m1.SREG = m.SREG ∧ m1.data_memory = m.data_memory ∧
      m1.skipped = m.skipped := by
  have hf := shift_and_fetch_frame junk m
  exact ⟨_, _, cycle_body_executing junk m remaining h hw,
    hf.1, hf.2.1, hf.2.2.1, hf.2.2.2.2.1⟩

/-- The cycle in which `BEQZ r1, 2` leaves ID and is executed on a zero register:
the skip counter becomes 2 and nothing else changes beyond the shift. -/
theorem cycle_body_BEQZ_two (junk : DecodedInstruction) (m : Machine) (remaining : Int)
    (r1 : Nat) (hr1 : r1 < 64)
    (hID : m.ID_buffer = 0x4002 + 64 * r1) (hz : m.GPR r1 = 0) (hsk : m.skipped ≤ 0)
    (hpc : m.PC < 1024)
    (hw : m.instruction_memory m.PC ≠ 0 ∧ m.instruction_memory m.PC ≠ 0xFFFF) :
    ∃ m1 : Machine, cycle_body junk m remaining = some (m1, remaining) ∧
      m1.GPR = m.GPR ∧ m1.SREG = m.SREG ∧ m1.data_memory = m.data_memory ∧
      m1.instruction_memory = m.instruction_memory ∧ m1.skipped = 2 ∧
      m1.EX_buffer = decode_instruction junk m.ID_buffer ∧ m1.ID_buffer = m.IF_buffer ∧
      m1.IF_buffer = m.instruction_memory m.PC ∧ m1.PC = m.PC + 1 := by
  have hwID : m.ID_buffer ≠ 0xFFFF := by rw [hID]; omega
  have hs1 := shift_and_fetch_hit junk m hpc hw.1
  have hd1 : decode_instruction junk m.ID_buffer
      = { junk with opcode := 4, r1 := r1, r2 := 2, imm := 2 } := by
    rw [hID]; exact decode_BEQZ_two junk r1 hr1
  have hg : (shift_and_fetch junk m).GPR (decode_instruction junk m.ID_buffer).r1 = 0 := by
    rw [(shift_and_fetch_frame junk m).1, hd1]; exact hz
  have hi : ¬ ((decode_instruction junk m.ID_buffer).imm > 2) := by
    rw [hd1]; show ¬ ((2 : Int) > 2); decide
  have hi2 : (decode_instruction junk m.ID_buffer).imm = 2 := by rw [hd1]
  refine ⟨{ shift_and_fetch junk m with skipped := 2 }, ?_, ?_⟩
  · rw [cycle_body_executing junk m remaining hsk hwID,
      execute_BEQZ_eq _ _ (by rw [hd1]) (by rw [hd1]; exact hr1),
      next_remaining_hit _ _ (by rw [hs1]; exact hw.2), if_pos hg, if_neg hi, hi2]
    rfl
  · rw [hs1]
    exact ⟨rfl, rfl, rfl, rfl, rfl, rfl, rfl, rfl, rfl⟩

/-! ## The decoder -/

/-- C1: for a 16-bit word `w` other than 0xFFFF the decoder yields opcode = bits
15..12, r1 = bits 11..6, r2 = bits 5..0; for an opcode other than 8 and 9 the
immediate is the 6-bit field `f = w mod 64` sign-extended (`f` below 32, `f - 64`
from 32 on, hence in -32..31); for opcode 8 or 9 the shift amount is `f` itself, in
0..63. The word 0xFFFF decodes to the NOP tag, opcode 0xFF. -/
theorem decode_instruction_fields (junk : DecodedInstruction) (w : Nat) (hw : w < 65536) :
    if w = 0xFFFF then (decode_instruction junk w).opcode = 0xFF
    else
      (decode_instruction junk w).opcode = w / 4096 ∧
      (decode_instruction junk w).r1 = w / 64 % 64 ∧
      (decode_instruction junk w).r2 = w % 64 ∧
      (w / 4096 ≠ 8 ∧ w / 4096 ≠ 9 →
        (decode_instruction junk w).imm
            = (if w % 64 < 32 then ((w % 64 : Nat) : Int) else ((w % 64 : Nat) : Int) - 64) ∧
        -32 ≤ (decode_instruction junk w).imm ∧ (decode_instruction junk w).imm ≤ 31) ∧
      (w / 4096 = 8 ∨ w / 4096 = 9 →
        (decode_instruction junk w).immshift = w % 64 ∧
        (decode_instruction junk w).immshift ≤ 63) := by
  have hop : w / 4096 % 16 = w / 4096 := Nat.mod_eq_of_lt (by omega)
  have hf : w % 64 < 64 := Nat.mod_lt _ (by decide)
  obtain ⟨h32, h63, h256, hneg, hpos⟩ := field_sign_extend (w % 64) hf
  by_cases hnop : w = 0xFFFF
  · rw [if_pos hnop]
    simp [decode_instruction, NOP_INSTR, hnop]
  · rw [if_neg hnop]
    have hnop2 : ¬ (w = NOP_INSTR) := hnop
    unfold decode_instruction
    rw [if_neg hnop2]
    simp only [OPCODE_eq, R1_INDEX_eq, R2_INDEX_eq, IMM_VALUE_eq, hop]
    by_cases hs : w / 4096 = 8 ∨ w / 4096 = 9
    · rw [if_pos hs]
      refine ⟨rfl, rfl, rfl, ?_, ?_⟩
      · intro hn
        rcases hs with h | h
        · exact absurd h hn.1
        · exact absurd h hn.2
      · intro _
        exact ⟨h256, by simp only [h256]; omega⟩
    · rw [if_neg hs]
      by_cases hb : w % 64 &&& 32 ≠ 0
      · rw [if_pos hb]
        have h32le : 32 ≤ w % 64 := h32.mp hb
        refine ⟨rfl, rfl, rfl, ?_, ?_⟩
        · intro _
          simp only [hneg h32le]
          rw [if_neg (by omega)]
          omega
        · intro h
          exact absurd h hs
      · rw [if_neg hb]
        have hlt : w % 64 < 32 := by
          by_contra hc
          exact hb (h32.mpr (by omega))
        refine ⟨rfl, rfl, rfl, ?_, ?_⟩
        · intro _
          simp only [h63, hpos hlt]
          rw [if_pos hlt]
          omega
        · intro h
          exact absurd h hs

/-- The decoder theorem at the word 0x3045, `MOVI R1, 5`. -/
theorem decode_instruction_fields_witness :
    (0x3045 : Nat) < 65536 ∧
    (if (0x3045 : Nat) = 0xFFFF then
        (decode_instruction ⟨0, 0, 0, 0, 0⟩ 0x3045).opcode = 0xFF
     else
      (decode_instruction ⟨0, 0, 0, 0, 0⟩ 0x3045).opcode = 0x3045 / 4096 ∧
      (decode_instruction ⟨0, 0, 0, 0, 0⟩ 0x3045).r1 = 0x3045 / 64 % 64 ∧
      (decode_instruction ⟨0, 0, 0, 0, 0⟩ 0x3045).r2 = 0x3045 % 64 ∧
      (0x3045 / 4096 ≠ 8 ∧ 0x3045 / 4096 ≠ 9 →
        (decode_instruction ⟨0, 0, 0, 0, 0⟩ 0x3045).imm
            = (if 0x3045 % 64 < 32 then ((0x3045 % 64 : Nat) : Int)
               else ((0x3045 % 64 : Nat) : Int) - 64) ∧
        -32 ≤ (decode_instruction ⟨0, 0, 0, 0, 0⟩ 0x3045).imm ∧
        (decode_instruction ⟨0, 0, 0, 0, 0⟩ 0x3045).imm ≤ 31) ∧
      (0x3045 / 4096 = 8 ∨ 0x3045 / 4096 = 9 →
        (decode_instruction ⟨0, 0, 0, 0, 0⟩ 0x3045).immshift = 0x3045 % 64 ∧
        (decode_instruction ⟨0, 0, 0, 0, 0⟩ 0x3045).immshift ≤ 63)) :=
  ⟨by decide, decode_instruction_fields ⟨0, 0, 0, 0, 0⟩ 0x3045 (by decide)⟩

/-! ## ADD -/

/-- C2: for every machine state and register indices `r1`, `r2` (also `r1 = r2`),
ADD sets `R[r1]` to the 8-bit two's-complement wrap of `R[r1] + R[r2]` and sets the
flags from the operands as read before the write: C is 1 exactly when the sum of
the operands as unsigned bytes exceeds 0xFF, V is 1 exactly when the operands have
the same sign bit and the result's sign bit differs, N is bit 7 of the result, Z is
1 exactly when the result is 0, and S is N XOR V. -/
theorem execute_ADD (m : Machine) (r1 r2 immshift : Nat) (imm : Int)
    (h1 : r1 < 64) (h2 : r2 < 64)
    (ha : -128 ≤ m.GPR r1 ∧ m.GPR r1 ≤ 127) (hb : -128 ≤ m.GPR r2 ∧ m.GPR r2 ≤ 127) :
    ∃ m1 : Machine,
      execute_instruction ⟨0, r1, r2, immshift, imm⟩ m = some m1 ∧
      m1.GPR r1 = (m.GPR r1 + m.GPR r2 + 128) % 256 - 128 ∧
      m1.SREG.C = (if m.GPR r1 % 256 + m.GPR r2 % 256 > 255 then 1 else 0) ∧
      m1.SREG.V = (if (m.GPR r1 < 0 ↔ m.GPR r2 < 0) ∧ ¬ (m.GPR r1 < 0 ↔ m1.GPR r1 < 0)
                    then 1 else 0) ∧
      m1.SREG.N = to_uint8 (m1.GPR r1) / 128 ∧
      m1.SREG.Z = (if m1.GPR r1 = 0 then 1 else 0) ∧
      m1.SREG.S = (if (m1.SREG.N = 1) ↔ (m1.SREG.V = 1) then 0 else 1) := by
  have hst : store m.GPR r1 (to_int8 (m.GPR r1 + m.GPR r2)) r1
      = to_int8 (m.GPR r1 + m.GPR r2) := store_same _ _ _
  have hr := to_int8_range (m.GPR r1 + m.GPR r2)
  refine ⟨_, execute_ADD_eq m r1 r2 immshift imm h1 h2 ha hb, hst, rfl, ?_, ?_, ?_, ?_⟩
  · dsimp only
    rw [hst]
  · dsimp only
    rw [hst]
    unfold to_uint8
    split <;> omega
  · dsimp only
    rw [hst]
  · dsimp only
    split <;> split <;> simp

/-- The ADD theorem at `R1 = 5`, `R2 = 3`, together with the resulting
values `R1 = 8`, `C = V = N = S = Z = 0`. -/
theorem execute_ADD_witness :
    ((1 : Nat) < 64 ∧ (2 : Nat) < 64 ∧
      (-128 ≤ (with_R1_R2 5 3).GPR 1 ∧ (with_R1_R2 5 3).GPR 1 ≤ 127) ∧
      (-128 ≤ (with_R1_R2 5 3).GPR 2 ∧ (with_R1_R2 5 3).GPR 2 ≤ 127)) ∧
    (∃ m1 : Machine,
      execute_instruction ⟨0, 1, 2, 0, 0⟩ (with_R1_R2 5 3) = some m1 ∧
      m1.GPR 1 = ((with_R1_R2 5 3).GPR 1 + (with_R1_R2 5 3).GPR 2 + 128) % 256 - 128 ∧
      m1.SREG.C
        = (if (with_R1_R2 5 3).GPR 1 % 256 + (with_R1_R2 5 3).GPR 2 % 256 > 255
            then 1 else 0) ∧
      m1.SREG.V = (if ((with_R1_R2 5 3).GPR 1 < 0 ↔ (with_R1_R2 5 3).GPR 2 < 0) ∧
                      ¬ ((with_R1_R2 5 3).GPR 1 < 0 ↔ m1.GPR 1 < 0) then 1 else 0) ∧
      m1.SREG.N = to_uint8 (m1.GPR 1) / 128 ∧
      m1.SREG.Z = (if m1.GPR 1 = 0 then 1 else 0) ∧
      m1.SREG.S = (if (m1.SREG.N = 1) ↔ (m1.SREG.V = 1) then 0 else 1)) ∧
    (execute_instruction ⟨0, 1, 2, 0, 0⟩ (with_R1_R2 5 3)).map
        (fun m1 => (m1.GPR 1, m1.SREG)) = some (8, ⟨0, 0, 0, 0, 0⟩) :=
  ⟨⟨by decide, by decide, by decide, by decide⟩,
   execute_ADD (with_R1_R2 5 3) 1 2 0 0 (by decide) (by decide) (by decide) (by decide),
   by decide⟩

/-! ## SUB -/

/-- SUB writes the destination before the overflow flag is computed, so the first
operand handed to `updateOverflowFlag` is the result itself: V is 0 after every
SUB. -/
theorem execute_SUB_overflow_zero (m : Machine) (r1 r2 immshift : Nat) (imm : Int)
    (h1 : r1 < 64) (h2 : r2 < 64) :
    ∃ m1 : Machine,
      execute_instruction ⟨1, r1, r2, immshift, imm⟩ m = some m1 ∧ m1.SREG.V = 0 := by
  refine ⟨_, execute_SUB_eq m r1 r2 immshift imm h1 h2, ?_⟩
  simp only [updateSignFlag, updateZeroFlag, updateNegativeFlag]
  split <;> split <;> rfl

/-- C3 (failing input): with `R1 = 3` and `R2 = 5`, both operands have sign bit 0
and the result `R1 - R2 = -2` has sign bit 1, yet SUB R1, R2 leaves V = 0. -/
theorem execute_SUB_overflow_at_3_5 :
    ((with_R1_R2 3 5).GPR 1 = 3 ∧ (with_R1_R2 3 5).GPR 2 = 5) ∧
    (execute_instruction ⟨1, 1, 2, 0, 0⟩ (with_R1_R2 3 5)).map
        (fun m1 => (m1.GPR 1, m1.SREG.V)) = some (-2, 0) := by
  decide

/-! ## SUB, MUL, EOR, ANDI, MOVI -/

/-- C4: SUB, MUL and EOR write to `R[r1]` the 8-bit two's-complement wrap of
`R[r1] - R[r2]`, `R[r1] * R[r2]` and the bitwise XOR of the two bytes; ANDI writes
the bitwise AND of the byte in `R[r1]` and the immediate byte, MOVI writes the
immediate; in each case every other register, the PC and the data memory are
unchanged. -/
theorem execute_alu_results (m : Machine) (r1 r2 immshift : Nat) (imm : Int)
    (h1 : r1 < 64) (h2 : r2 < 64) :
    (∃ m1 : Machine, execute_instruction ⟨1, r1, r2, immshift, imm⟩ m = some m1 ∧
      m1.GPR = store m.GPR r1 ((m.GPR r1 - m.GPR r2 + 128) % 256 - 128) ∧
      m1.PC = m.PC ∧ m1.data_memory = m.data_memory) ∧
    (∃ m1 : Machine, execute_instruction ⟨2, r1, r2, immshift, imm⟩ m = some m1 ∧
      m1.GPR = store m.GPR r1 ((m.GPR r1 * m.GPR r2 + 128) % 256 - 128) ∧
      m1.PC = m.PC ∧ m1.data_memory = m.data_memory) ∧
    (∃ (m1 : Machine) (v : Int),
      execute_instruction ⟨6, r1, r2, immshift, imm⟩ m = some m1 ∧
      (-128 ≤ v ∧ v ≤ 127) ∧ to_uint8 v = to_uint8 (m.GPR r1) ^^^ to_uint8 (m.GPR r2) ∧
      m1.GPR = store m.GPR r1 v ∧
      m1.PC = m.PC ∧ m1.data_memory = m.data_memory) ∧
    (∃ (m1 : Machine) (v : Int),
      execute_instruction ⟨5, r1, r2, immshift, imm⟩ m = some m1 ∧
      (-128 ≤ v ∧ v ≤ 127) ∧ to_uint8 v = to_uint8 (m.GPR r1) &&& to_uint8 imm ∧
      m1.GPR = store m.GPR r1 v ∧
      m1.PC = m.PC ∧ m1.data_memory = m.data_memory) ∧
    (∃ m1 : Machine, execute_instruction ⟨3, r1, r2, immshift, imm⟩ m = some m1 ∧
      m1.GPR = store m.GPR r1 imm ∧
      m1.PC = m.PC ∧ m1.data_memory = m.data_memory) := by
  refine ⟨?_, ?_, ?_, ?_, ?_⟩
  · exact ⟨_, execute_SUB_eq m r1 r2 immshift imm h1 h2, rfl, rfl, rfl⟩
  · exact ⟨_, execute_MUL_eq m r1 r2 immshift imm h1 h2, rfl, rfl, rfl⟩
  · exact ⟨_, _, execute_EOR_eq m r1 r2 immshift imm h1 h2, to_int8_range _,
      to_uint8_int_xor _ _, rfl, rfl, rfl⟩
  · exact ⟨_, _, execute_ANDI_eq m r1 r2 immshift imm h1, to_int8_range _,
      to_uint8_int_and _ _, rfl, rfl, rfl⟩
  · exact ⟨_, execute_MOVI_eq m r1 r2 immshift imm h1, rfl, rfl, rfl⟩

/-- The theorem on SUB, MUL, EOR, ANDI and MOVI at `R1 = 8`, `R2 = 3`, immediate 2, together
with the sample sequence SUB, MUL, ANDI 2, EOR on `R1`, `R2`, which takes `R1`
through 5, 15, 2 and 1 while `R2` stays 3. -/
theorem execute_alu_results_witness :
    ((1 : Nat) < 64 ∧ (2 : Nat) < 64) ∧
    ((∃ m1 : Machine, execute_instruction ⟨1, 1, 2, 0, 2⟩ (with_R1_R2 8 3) = some m1 ∧
      m1.GPR = store (with_R1_R2 8 3).GPR 1
        (((with_R1_R2 8 3).GPR 1 - (with_R1_R2 8 3).GPR 2 + 128) % 256 - 128) ∧
      m1.PC = (with_R1_R2 8 3).PC ∧ m1.data_memory = (with_R1_R2 8 3).data_memory) ∧
    (∃ m1 : Machine, execute_instruction ⟨2, 1, 2, 0, 2⟩ (with_R1_R2 8 3) = some m1 ∧
      m1.GPR = store (with_R1_R2 8 3).GPR 1
        (((with_R1_R2 8 3).GPR 1 * (with_R1_R2 8 3).GPR 2 + 128) % 256 - 128) ∧
      m1.PC = (with_R1_R2 8 3).PC ∧ m1.data_memory = (with_R1_R2 8 3).data_memory) ∧
    (∃ (m1 : Machine) (v : Int),
      execute_instruction ⟨6, 1, 2, 0, 2⟩ (with_R1_R2 8 3) = some m1 ∧
      (-128 ≤ v ∧ v ≤ 127) ∧
      to_uint8 v = to_uint8 ((with_R1_R2 8 3).GPR 1) ^^^ to_uint8 ((with_R1_R2 8 3).GPR 2) ∧
      m1.GPR = store (with_R1_R2 8 3).GPR 1 v ∧
      m1.PC = (with_R1_R2 8 3).PC ∧ m1.data_memory = (with_R1_R2 8 3).data_memory) ∧
    (∃ (m1 : Machine) (v : Int),
      execute_instruction ⟨5, 1, 2, 0, 2⟩ (with_R1_R2 8 3) = some m1 ∧
      (-128 ≤ v ∧ v ≤ 127) ∧
      to_uint8 v = to_uint8 ((with_R1_R2 8 3).GPR 1) &&& to_uint8 2 ∧
      m1.GPR = store (with_R1_R2 8 3).GPR 1 v ∧
      m1.PC = (with_R1_R2 8 3).PC ∧ m1.data_memory = (with_R1_R2 8 3).data_memory) ∧
    (∃ m1 : Machine, execute_instruction ⟨3, 1, 2, 0, 2⟩ (with_R1_R2 8 3) = some m1 ∧
      m1.GPR = store (with_R1_R2 8 3).GPR 1 2 ∧
      m1.PC = (with_R1_R2 8 3).PC ∧ m1.data_memory = (with_R1_R2 8 3).data_memory)) ∧
    ((execute_program [⟨1, 1, 2, 0, 0⟩] (with_R1_R2 8 3)).map
        (fun m1 => (m1.GPR 1, m1.GPR 2)) = some (5, 3) ∧
     (execute_program [⟨1, 1, 2, 0, 0⟩, ⟨2, 1, 2, 0, 0⟩] (with_R1_R2 8 3)).map
        (fun m1 => (m1.GPR 1, m1.GPR 2)) = some (15, 3) ∧
     (execute_program [⟨1, 1, 2, 0, 0⟩, ⟨2, 1, 2, 0, 0⟩, ⟨5, 1, 2, 0, 2⟩]
        (with_R1_R2 8 3)).map (fun m1 => (m1.GPR 1, m1.GPR 2)) = some (2, 3) ∧
     (execute_program [⟨1, 1, 2, 0, 0⟩, ⟨2, 1, 2, 0, 0⟩, ⟨5, 1, 2, 0, 2⟩, ⟨6, 1, 2, 0, 0⟩]
        (with_R1_R2 8 3)).map (fun m1 => (m1.GPR 1, m1.GPR 2)) = some (1, 3)) :=
  ⟨⟨by decide, by decide⟩,
   execute_alu_results (with_R1_R2 8 3) 1 2 0 2 (by decide) (by decide),
   by decide⟩

/-! ## The program counter in the execute stage -/

/-- C5 (failing input): `LDR R1, [0]` executed with `PC = 5` loads `R1` from data
cell 0 and leaves `PC = 6`, whereas the sibling `STR R1, [0]` leaves `PC = 5`. -/
theorem execute_LDR_changes_PC :
    (execute_instruction ⟨10, 1, 0, 0, 0⟩
        { resetAll with PC := 5, data_memory := store resetAll.data_memory 0 7 }).map
        (fun m1 => (m1.GPR 1, m1.PC)) = some (7, 6) ∧
    (execute_instruction ⟨11, 1, 0, 0, 0⟩
        { resetAll with PC := 5, data_memory := store resetAll.data_memory 0 7 }).map
        (fun m1 => m1.PC) = some 5 := by
  decide

/-! ## BEQZ with offset 2 in the pipeline -/

/-- C6 (amended): when `BEQZ r1, 2` is executed on a register holding zero, before
draining has started and with the next two program words fetched normally, the two
instructions that follow the BEQZ in program order pass through EX in the next two
cycles without being executed (the skip counter goes 2, 1, 0 while registers, flags
and data memory stay as they were), and the third instruction after the BEQZ is
executed in the cycle after that, on those unchanged registers, flags and data
memory. -/
theorem beqz_offset_two_skips_two (j1 j2 j3 j4 : DecodedInstruction) (m : Machine)
    (r1 : Nat) (hr1 : r1 < 64)
    (hID : m.ID_buffer = 0x4002 + 64 * r1) (hz : m.GPR r1 = 0) (hsk : m.skipped ≤ 0)
    (hpc : m.PC + 1 < 1024)
    (hw2 : m.instruction_memory m.PC ≠ 0 ∧ m.instruction_memory m.PC ≠ 0xFFFF)
    (hw3 : m.instruction_memory (m.PC + 1) ≠ 0 ∧
           m.instruction_memory (m.PC + 1) ≠ 0xFFFF) :
    ∃ (m1 m2 m3 m4 : Machine) (rem3 rem4 : Int),
      cycle_body j1 m INT32_MAX = some (m1, INT32_MAX) ∧
      cycle_body j2 m1 INT32_MAX = some (m2, INT32_MAX) ∧
      cycle_body j3 m2 INT32_MAX = some (m3, rem3) ∧ 0 < rem3 ∧
      cycle_body j4 m3 rem3
        = (execute_instruction
            (decode_instruction j4 (m.instruction_memory (m.PC + 1))) m4).map
            (fun x => (x, rem4)) ∧
      m1.EX_buffer = decode_instruction j1 m.ID_buffer ∧ m1.skipped = 2 ∧
      m2.EX_buffer = decode_instruction j2 m.IF_buffer ∧ m2.skipped = 1 ∧
      m3.EX_buffer = decode_instruction j3 (m.instruction_memory m.PC) ∧ m3.skipped = 0 ∧
      (m2.GPR = m.GPR ∧ m2.SREG = m.SREG ∧ m2.data_memory = m.data_memory) ∧
      (m3.GPR = m.GPR ∧ m3.SREG = m.SREG ∧ m3.data_memory = m.data_memory) ∧
      (m4.GPR = m.GPR ∧ m4.SREG = m.SREG ∧ m4.data_memory = m.data_memory ∧
        m4.skipped = 0) := by
  -- cycle 1: the BEQZ is executed
  obtain ⟨m1, hc1, g1, s1, d1, i1, k1, e1, id1, if1, p1⟩ :=
    cycle_body_BEQZ_two j1 m INT32_MAX r1 hr1 hID hz hsk (by omega) hw2
  -- cycle 2: the instruction after the BEQZ is in EX and is skipped
  obtain ⟨m2, hc2, g2, s2, d2, i2, k2, e2, id2, if2, p2⟩ :=
    cycle_body_skipping_hit j2 m1 INT32_MAX (by omega) (by omega)
      (by rw [i1, p1]; exact hw3)
  -- cycle 3: the second instruction after the BEQZ is in EX and is skipped
  obtain ⟨m3, rem3, hc3, hpos, g3, s3, d3, i3, k3, e3, id3⟩ :=
    cycle_body_skipping_any j3 m2 (by omega)
  -- cycle 4: the third instruction after the BEQZ is executed
  have hID3 : m3.ID_buffer = m.instruction_memory (m.PC + 1) := by
    rw [id3, if2, i1, p1]
  obtain ⟨m4, rem4, hc4, g4, s4, d4, k4⟩ :=
    cycle_body_executing_any j4 m3 rem3 (by omega) (by rw [hID3]; exact hw3.2)
  rw [hID3] at hc4
  refine ⟨m1, m2, m3, m4, rem3, rem4, hc1, hc2, hc3, hpos, hc4, e1, k1, ?_, ?_, ?_, ?_,
    ⟨?_, ?_, ?_⟩, ⟨?_, ?_, ?_⟩, ⟨?_, ?_, ?_, ?_⟩⟩
  · rw [e2, id1]
  · omega
  · rw [e3, id2, if1]
  · omega
  · rw [g2, g1]
  · rw [s2, s1]
  · rw [d2, d1]
  · rw [g3, g2, g1]
  · rw [s3, s2, s1]
  · rw [d3, d2, d1]
  · rw [g4, g3, g2, g1]
  · rw [s4, s3, s2, s1]
  · rw [d4, d3, d2, d1]
  · omega

/-- The theorem on BEQZ with offset 2 at the sample program
`BEQZ R1, 2; MOVI R3, 1; MOVI R4, 1; MOVI R5, 1`. -/
theorem beqz_offset_two_skips_two_witness :
    ((1 : Nat) < 64 ∧ beqz_sample.ID_buffer = 0x4002 + 64 * 1 ∧ beqz_sample.GPR 1 = 0 ∧
      beqz_sample.skipped ≤ 0 ∧ beqz_sample.PC + 1 < 1024 ∧
      (beqz_sample.instruction_memory beqz_sample.PC ≠ 0 ∧
        beqz_sample.instruction_memory beqz_sample.PC ≠ 0xFFFF) ∧
      (beqz_sample.instruction_memory (beqz_sample.PC + 1) ≠ 0 ∧
        beqz_sample.instruction_memory (beqz_sample.PC + 1) ≠ 0xFFFF)) ∧
    (∃ (m1 m2 m3 m4 : Machine) (rem3 rem4 : Int),
      cycle_body ⟨0, 0, 0, 0, 0⟩ beqz_sample INT32_MAX = some (m1, INT32_MAX) ∧
      cycle_body ⟨0, 0, 0, 0, 0⟩ m1 INT32_MAX = some (m2, INT32_MAX) ∧
      cycle_body ⟨0, 0, 0, 0, 0⟩ m2 INT32_MAX = some (m3, rem3) ∧ 0 < rem3 ∧
      cycle_body ⟨0, 0, 0, 0, 0⟩ m3 rem3
        = (execute_instruction
            (decode_instruction ⟨0, 0, 0, 0, 0⟩
              (beqz_sample.instruction_memory (beqz_sample.PC + 1))) m4).map
            (fun x => (x, rem4)) ∧
      m1.EX_buffer = decode_instruction ⟨0, 0, 0, 0, 0⟩ beqz_sample.ID_buffer ∧
      m1.skipped = 2 ∧
      m2.EX_buffer = decode_instruction ⟨0, 0, 0, 0, 0⟩ beqz_sample.IF_buffer ∧
      m2.skipped = 1 ∧
      m3.EX_buffer = decode_instruction ⟨0, 0, 0, 0, 0⟩
        (beqz_sample.instruction_memory beqz_sample.PC) ∧
      m3.skipped = 0 ∧
      (m2.GPR = beqz_sample.GPR ∧ m2.SREG = beqz_sample.SREG ∧
        m2.data_memory = beqz_sample.data_memory) ∧
      (m3.GPR = beqz_sample.GPR ∧ m3.SREG = beqz_sample.SREG ∧
        m3.data_memory = beqz_sample.data_memory) ∧
      (m4.GPR = beqz_sample.GPR ∧ m4.SREG = beqz_sample.SREG ∧
        m4.data_memory = beqz_sample.data_memory ∧ m4.skipped = 0)) :=
  ⟨⟨by decide, by decide, by decide, by decide, by decide, by decide, by decide⟩,
   beqz_offset_two_skips_two ⟨0, 0, 0, 0, 0⟩ ⟨0, 0, 0, 0, 0⟩ ⟨0, 0, 0, 0, 0⟩ ⟨0, 0, 0, 0, 0⟩
     beqz_sample 1 (by decide) (by decide) (by decide) (by decide) (by decide)
     (by decide) (by decide)⟩

/-- C6 (counterexample): the program `BEQZ R1, 2; MOVI R3, 1; MOVI R4, 1; MOVI R5, 1`
run from the reset state (`R1 = 0`, so the BEQZ with offset 2 is taken) halts with
`R3 = 0`, `R4 = 0` and `R5 = 1`: the second instruction after the BEQZ, `MOVI R4, 1`,
is not executed either. -/
theorem beqz_offset_two_run :
    (decode_instruction ⟨0, 0, 0, 0, 0⟩ 0x4042 = ⟨4, 1, 2, 0, 2⟩ ∧
      decode_instruction ⟨0, 0, 0, 0, 0⟩ 0x30C1 = ⟨3, 3, 1, 0, 1⟩ ∧
      decode_instruction ⟨0, 0, 0, 0, 0⟩ 0x3101 = ⟨3, 4, 1, 0, 1⟩ ∧
      decode_instruction ⟨0, 0, 0, 0, 0⟩ 0x3141 = ⟨3, 5, 1, 0, 1⟩) ∧
    final_registers 6 (run_pipeline (fun _ => ⟨0, 0, 0, 0, 0⟩) 10
        (with_program [0x4042, 0x30C1, 0x3101, 0x3141]))
      = some [0, 0, 0, 0, 0, 1] := by
  decide

/-! ## BEQZ -/

/-- C7: executing BEQZ agrees with the reference definition `beqz_reference` in
every state and for every immediate: on a non-zero register nothing changes; on a
zero register with `imm > 2` the skip counter becomes 2 and PC becomes
`PC + imm - 2` modulo 2^16; on a zero register with `imm <= 2` the skip counter
becomes `imm` and PC is unchanged; registers, flags and data memory never change. -/
theorem execute_BEQZ_eq_reference (m : Machine) (r1 r2 immshift : Nat) (imm : Int)
    (h1 : r1 < 64) :
    execute_instruction ⟨4, r1, r2, immshift, imm⟩ m = some (beqz_reference m r1 imm) ∧
    (beqz_reference m r1 imm).GPR = m.GPR ∧
    (beqz_reference m r1 imm).SREG = m.SREG ∧
    (beqz_reference m r1 imm).data_memory = m.data_memory := by
  refine ⟨?_, ?_, ?_, ?_⟩
  · simp only [execute_instruction, NUM_GPRS]
    rw [if_pos h1]
    unfold beqz_reference
    by_cases hz : m.GPR r1 = 0
    · rw [if_pos hz, if_neg (not_not.mpr hz)]
      by_cases hi : imm > 2
      · rw [if_pos hi, if_pos hi]
        rfl
      · rw [if_neg hi, if_neg hi]
    · rw [if_neg hz, if_pos hz]
  all_goals
    unfold beqz_reference
    split
    · rfl
    · split <;> rfl

/-- The BEQZ reference theorem at `BEQZ R1, 5` in the reset state with
`PC = 10`: the skip counter becomes 2 and PC becomes 13. -/
theorem execute_BEQZ_eq_reference_witness :
    (1 : Nat) < 64 ∧
    (execute_instruction ⟨4, 1, 5, 0, 5⟩ { resetAll with PC := 10 }
        = some (beqz_reference { resetAll with PC := 10 } 1 5) ∧
      (beqz_reference { resetAll with PC := 10 } 1 5).GPR
        = ({ resetAll with PC := 10 } : Machine).GPR ∧
      (beqz_reference { resetAll with PC := 10 } 1 5).SREG
        = ({ resetAll with PC := 10 } : Machine).SREG ∧
      (beqz_reference { resetAll with PC := 10 } 1 5).data_memory
        = ({ resetAll with PC := 10 } : Machine).data_memory) ∧
    ((beqz_reference { resetAll with PC := 10 } 1 5).skipped = 2 ∧
      (beqz_reference { resetAll with PC := 10 } 1 5).PC = 13) :=
  ⟨by decide,
   execute_BEQZ_eq_reference { resetAll with PC := 10 } 1 5 0 5 (by decide),
   by decide⟩

/-- C8 (failing input): the word 0x407D decodes to `BEQZ R1, -3`; executed with
`R1 = 0` and `PC = 10` it leaves the skip counter at -3 and `PC = 10`, not skip
counter 2 and `PC = 10 + (-3) - 2 = 5`. -/
theorem execute_BEQZ_backward_offset :
    (decode_instruction ⟨0, 0, 0, 0, 0⟩ 0x407D).opcode = 4 ∧
    (decode_instruction ⟨0, 0, 0, 0, 0⟩ 0x407D).r1 = 1 ∧
    (decode_instruction ⟨0, 0, 0, 0, 0⟩ 0x407D).imm = -3 ∧
    ({ resetAll with PC := 10 } : Machine).GPR 1 = 0 ∧
    (execute_instruction (decode_instruction ⟨0, 0, 0, 0, 0⟩ 0x407D)
        { resetAll with PC := 10 }).map (fun m1 => (m1.skipped, m1.PC))
      = some (-3, 10) := by
  decide

/-! ## BR -/

/-- C9 (failing input): with `R1 = 0` and `R2 = -1`, `BR R1, R2` sets PC to 0xFFFF,
whereas the word with high byte `R1 mod 256` and low byte `R2 mod 256` is 0x00FF. -/
theorem execute_BR_negative_low_byte :
    (execute_instruction ⟨7, 1, 2, 0, 0⟩ (with_R1_R2 0 (-1))).map (fun m1 => m1.PC)
      = some 65535 ∧
    256 * ((with_R1_R2 0 (-1)).GPR 1 % 256) + (with_R1_R2 0 (-1)).GPR 2 % 256 = 255 := by
  decide

/-! ## Data memory addressing -/

/-- C10 (failing input): the word 0xB07F is `STR R1` with immediate field 63; it
decodes to the immediate -1, and executing it indexes `data_memory` at -1, outside
the array, so the execution has no defined result. The word 0xA07F (`LDR R1` with
field 63) behaves alike. -/
theorem execute_STR_LDR_field_63 :
    (decode_instruction ⟨0, 0, 0, 0, 0⟩ 0xB07F).opcode = 11 ∧
    (decode_instruction ⟨0, 0, 0, 0, 0⟩ 0xB07F).imm = -1 ∧
    (execute_instruction (decode_instruction ⟨0, 0, 0, 0, 0⟩ 0xB07F) resetAll).isNone
      = true ∧
    (decode_instruction ⟨0, 0, 0, 0, 0⟩ 0xA07F).opcode = 10 ∧
    (decode_instruction ⟨0, 0, 0, 0, 0⟩ 0xA07F).imm = -1 ∧
    (execute_instruction (decode_instruction ⟨0, 0, 0, 0, 0⟩ 0xA07F) resetAll).isNone
      = true := by
  decide

/-! ## Closed forms of LDR, STR, SAL, SAR and BR -/

theorem execute_STR_eq (m : Machine) (r1 r2 immshift : Nat) (imm : Int)
    (h1 : r1 < 64) (hi : 0 ≤ imm ∧ imm < 2048) :
    execute_instruction ⟨11, r1, r2, immshift, imm⟩ m
      = some { m with data_memory := store m.data_memory imm.toNat (m.GPR r1) } := by
  simp only [execute_instruction, NUM_GPRS, DATA_MEMORY_SIZE]
  rw [if_pos ⟨h1, hi.1, by exact_mod_cast hi.2⟩]

theorem execute_LDR_eq (m : Machine) (r1 r2 immshift : Nat) (imm : Int)
    (h1 : r1 < 64) (hi : 0 ≤ imm ∧ imm < 2048) :
    execute_instruction ⟨10, r1, r2, immshift, imm⟩ m
      = some { m with GPR := store m.GPR r1 (m.data_memory imm.toNat)
                      PC := (m.PC + 1) % 65536 } := by
  simp only [execute_instruction, NUM_GPRS, DATA_MEMORY_SIZE]
  rw [if_pos ⟨h1, hi.1, by exact_mod_cast hi.2⟩]

theorem execute_SAL_eq (m : Machine) (r1 r2 immshift : Nat) (imm : Int)
    (h1 : r1 < 64) (hs : immshift < 32) :
    execute_instruction ⟨8, r1, r2, immshift, imm⟩ m
      = some { m with
          GPR := store m.GPR r1 (to_int8 (int_shl (m.GPR r1) immshift))
          SREG := updateZeroFlag (updateNegativeFlag m.SREG
            (to_int8 (int_shl (m.GPR r1) immshift)))
            (to_int8 (int_shl (m.GPR r1) immshift)) } := by
  simp only [execute_instruction, NUM_GPRS]
  rw [if_pos ⟨h1, hs⟩]

theorem execute_SAR_eq (m : Machine) (r1 r2 immshift : Nat) (imm : Int)
    (h1 : r1 < 64) (hs : immshift < 32) :
    execute_instruction ⟨9, r1, r2, immshift, imm⟩ m
      = some { m with
          GPR := store m.GPR r1 (to_int8 (int_shr (m.GPR r1) immshift))
          SREG := updateZeroFlag (updateNegativeFlag m.SREG
            (to_int8 (int_shr (m.GPR r1) immshift)))
            (to_int8 (int_shr (m.GPR r1) immshift)) } := by
  simp only [execute_instruction, NUM_GPRS]
  rw [if_pos ⟨h1, hs⟩]

theorem execute_BR_eq (m : Machine) (r1 r2 immshift : Nat) (imm : Int)
    (h1 : r1 < 64) (h2 : r2 < 64) :
    execute_instruction ⟨7, r1, r2, immshift, imm⟩ m
      = some { m with PC := to_uint16 (int_or (int_shl (m.GPR r1) 8) (m.GPR r2))
                      IF_buffer := 0xFFFF
                      ID_buffer := 0xFFFF } := by
  simp only [execute_instruction, NUM_GPRS, NOP_INSTR]
  rw [if_pos ⟨h1, h2⟩]

/-- A left shift by at most 7 whose product fits in a signed byte is the
multiplication by the power of two. -/
theorem int_shl_of_fits (v : Int) (s : Nat) (hs : s ≤ 7)
    (hfit : -128 ≤ v * 2 ^ s ∧ v * 2 ^ s ≤ 127) :
    to_int8 (int_shl v s) = v * 2 ^ s := by
  unfold to_int8 int_shl int_of_bits int_bits
  rw [Nat.shiftLeft_eq]
  interval_cases s <;> norm_num at hfit ⊢ <;> split <;> omega

/-- An arithmetic right shift undoes the multiplication by the power of two. -/
theorem int_shr_mul (v : Int) (s : Nat) : int_shr (v * 2 ^ s) s = v := by
  unfold int_shr
  exact Int.mul_ediv_cancel v (by positivity)

/-- A value whose product with a power of two fits in a signed byte fits itself. -/
theorem fits_range (v : Int) (s : Nat) (hs : s ≤ 7)
    (hfit : -128 ≤ v * 2 ^ s ∧ v * 2 ^ s ≤ 127) : -128 ≤ v ∧ v ≤ 127 := by
  interval_cases s <;> norm_num at hfit <;> omega

/-! ## Frame facts of the flag updates -/

theorem updateNegativeFlag_fields (s : SREG_t) (x : Int) :
    (updateNegativeFlag s x).C = s.C ∧ (updateNegativeFlag s x).V = s.V ∧
    (updateNegativeFlag s x).S = s.S ∧ (updateNegativeFlag s x).Z = s.Z ∧
    (updateNegativeFlag s x).N ≤ 1 := by
  unfold updateNegativeFlag
  split
  · exact ⟨rfl, rfl, rfl, rfl, Nat.le_refl 1⟩
  · exact ⟨rfl, rfl, rfl, rfl, Nat.zero_le 1⟩

theorem updateZeroFlag_fields (s : SREG_t) (x : Int) :
    (updateZeroFlag s x).C = s.C ∧ (updateZeroFlag s x).V = s.V ∧
    (updateZeroFlag s x).S = s.S ∧ (updateZeroFlag s x).N = s.N := by
  unfold updateZeroFlag
  split <;> exact ⟨rfl, rfl, rfl, rfl⟩

theorem updateOverflowFlag_fields (s : SREG_t) (a b r : Int) :
    (updateOverflowFlag s a b r).C = s.C ∧ (updateOverflowFlag s a b r).N = s.N ∧
    (updateOverflowFlag s a b r).S = s.S ∧ (updateOverflowFlag s a b r).Z = s.Z ∧
    (updateOverflowFlag s a b r).V ≤ 1 := by
  unfold updateOverflowFlag
  refine ⟨rfl, rfl, rfl, rfl, ?_⟩
  dsimp only
  split
  · exact Nat.le_refl 1
  · exact Nat.zero_le 1

/-- After `updateSignFlag` on one-bit N and V, S is N XOR V. -/
theorem updateSignFlag_xor (s : SREG_t) (hn : s.N ≤ 1) (hv : s.V ≤ 1) :
    (updateSignFlag s).S = (updateSignFlag s).N ^^^ (updateSignFlag s).V ∧
    (updateSignFlag s).C = s.C ∧ (updateSignFlag s).V = s.V ∧
    (updateSignFlag s).N = s.N ∧ (updateSignFlag s).Z = s.Z := by
  refine ⟨?_, rfl, rfl, rfl, rfl⟩
  show (s.N ^^^ s.V) % 2 = s.N ^^^ s.V
  have h1 : s.N = 0 ∨ s.N = 1 := by omega
  have h2 : s.V = 0 ∨ s.V = 1 := by omega
  rcases h1 with h1 | h1 <;> rcases h2 with h2 | h2 <;> rw [h1, h2] <;> decide

/-! ## The status register after one instruction -/

theorem execute_default (op r1 r2 immshift : Nat) (imm : Int) (m : Machine)
    (h : 12 ≤ op) : execute_instruction ⟨op, r1, r2, immshift, imm⟩ m = some m := by
  simp only [execute_instruction]
  split
  all_goals first
    | rfl
    | (exfalso; omega)

/-- Execution is defined whenever every array index and shift count the opcode
uses is in range. -/
theorem execute_instruction_defined (d : DecodedInstruction) (m : Machine)
    (h1 : d.opcode ≤ 11 → d.r1 < 64)
    (h2 : d.opcode = 0 ∨ d.opcode = 1 ∨ d.opcode = 2 ∨ d.opcode = 6 ∨ d.opcode = 7 →
      d.r2 < 64)
    (h3 : d.opcode = 8 ∨ d.opcode = 9 → d.immshift < 32)
    (h4 : d.opcode = 10 ∨ d.opcode = 11 → 0 ≤ d.imm ∧ d.imm < 2048) :
    ∃ m1 : Machine, execute_instruction d m = some m1 := by
  simp only [execute_instruction, NUM_GPRS, DATA_MEMORY_SIZE]
  split
  all_goals first
    | exact ⟨_, rfl⟩
    | (rw [if_pos (h1 (by omega))]
       (repeat' split) <;> exact ⟨_, rfl⟩)
    | (rw [if_pos (And.intro (h1 (by omega)) (h2 (by omega)))]
       exact ⟨_, rfl⟩)
    | (rw [if_pos (And.intro (h1 (by omega)) (h3 (by omega)))]
       exact ⟨_, rfl⟩)
    | (rw [if_pos (And.intro (h1 (by omega))
        (And.intro (h4 (by omega)).1 (by exact_mod_cast (h4 (by omega)).2)))]
       exact ⟨_, rfl⟩)

/-! ## Execution on a platform: one instruction -/

/-- Where `execute_instruction` is defined, execution on any platform yields the
same state. -/
theorem execute_instruction_on_of_defined (p : Platform) (d : DecodedInstruction)
    (m m1 : Machine) (h : execute_instruction d m = some m1) :
    execute_instruction_on p d m = some m1 := by
  obtain ⟨op, r1, r2, sh, imm⟩ := d
  simp only [execute_instruction_on]
  split
  · simp only [execute_instruction] at h
    split at h
    · rename_i hc
      rw [if_pos hc.1]
      simp only [if_pos hc.2]
      exact h
    · cases h
  · simp only [execute_instruction] at h
    split at h
    · rename_i hc
      rw [if_pos hc.1]
      simp only [if_pos hc.2]
      exact h
    · cases h
  · simp only [execute_instruction] at h
    split at h
    · rename_i hc
      rw [if_pos hc.1]
      simp only [if_pos hc.2]
      exact h
    · cases h
  · simp only [execute_instruction] at h
    split at h
    · rename_i hc
      rw [if_pos hc.1, if_pos hc.2]
      exact h
    · cases h
  · exact h

/-- On a platform execution is defined whenever the register indices are in
range, for every shift count and every data index. -/
theorem execute_instruction_on_defined (p : Platform) (d : DecodedInstruction) (m : Machine)
    (h1 : d.opcode ≤ 11 → d.r1 < 64)
    (h2 : d.opcode = 0 ∨ d.opcode = 1 ∨ d.opcode = 2 ∨ d.opcode = 6 ∨ d.opcode = 7 →
      d.r2 < 64) :
    ∃ m1 : Machine, execute_instruction_on p d m = some m1 := by
  obtain ⟨op, r1, r2, sh, imm⟩ := d
  simp only [execute_instruction_on, NUM_GPRS]
  split
  · rw [if_pos (h1 (show (8 : Nat) ≤ 11 by decide))]
    exact ⟨_, rfl⟩
  · rw [if_pos (h1 (show (9 : Nat) ≤ 11 by decide))]
    exact ⟨_, rfl⟩
  · rw [if_pos (h1 (show (10 : Nat) ≤ 11 by decide))]
    exact ⟨_, rfl⟩
  · rw [if_pos (h1 (show (11 : Nat) ≤ 11 by decide))]
    split <;> exact ⟨_, rfl⟩
  · rename_i h8 h9 h10 h11
    have g8 : op ≠ 8 := h8
    have g9 : op ≠ 9 := h9
    have g10 : op ≠ 10 := h10
    have g11 : op ≠ 11 := h11
    exact execute_instruction_defined ⟨op, r1, r2, sh, imm⟩ m h1 h2
      (fun hc => by rcases hc with hc | hc <;> [exact absurd hc g8; exact absurd hc g9])
      (fun hc => by rcases hc with hc | hc <;> [exact absurd hc g10; exact absurd hc g11])

/-! ## The cycle loop: idle cycles and unfolding -/

/-- The sentinel decodes to the NOP tag. -/
theorem decode_NOP (junk : DecodedInstruction) :
    (decode_instruction junk 0xFFFF).opcode = 0xFF := by
  simp [decode_instruction, NOP_INSTR]

/-- A cycle entered with the sentinel in ID executes nothing: the pipeline shifts,
EX receives the NOP tag, and registers, flags and data memory stay as they were. -/
theorem cycle_body_nop_in_ID (junk : DecodedInstruction) (m : Machine) (remaining : Int)
    (hID : m.ID_buffer = 0xFFFF) :
    ∃ (m1 : Machine) (remaining1 : Int),
      cycle_body junk m remaining = some (m1, remaining1) ∧
      m1.EX_buffer.opcode = 0xFF ∧ m1.ID_buffer = m.IF_buffer ∧
      m1.GPR = m.GPR ∧ m1.SREG = m.SREG ∧ m1.data_memory = m.data_memory := by
  have hf := shift_and_fetch_frame junk m
  have he : (shift_and_fetch junk m).EX_buffer.opcode = 0xFF := by
    rw [hf.2.2.2.2.2.1, hID]
    exact decode_NOP junk
  rw [cycle_body_eq]
  by_cases hs : (shift_and_fetch junk m).skipped > 0
  · rw [if_pos hs]
    exact ⟨_, _, rfl, he, hf.2.2.2.2.2.2, hf.1, hf.2.1, hf.2.2.1⟩
  · rw [if_neg hs, if_pos he]
    exact ⟨_, _, rfl, he, hf.2.2.2.2.2.2, hf.1, hf.2.1, hf.2.2.1⟩

/-- An idle cycle: nothing to skip and the sentinel in ID. -/
theorem cycle_body_idle (junk : DecodedInstruction) (m : Machine) (remaining : Int)
    (hsk : m.skipped ≤ 0) (hID : m.ID_buffer = 0xFFFF) :
    cycle_body junk m remaining
      = some (shift_and_fetch junk m, next_remaining (shift_and_fetch junk m) remaining) := by
  have hf := shift_and_fetch_frame junk m
  have he : (shift_and_fetch junk m).EX_buffer.opcode = 0xFF := by
    rw [hf.2.2.2.2.2.1, hID]
    exact decode_NOP junk
  rw [cycle_body_eq, hf.2.2.2.2.1, if_neg (by omega), if_pos he]

/-- On an instruction memory holding only zero and sentinel words every fetch
yields the sentinel. -/
theorem shift_and_fetch_no_program (junk : DecodedInstruction) (m : Machine)
    (H : ∀ i : Nat, i < 1024 → m.instruction_memory i = 0 ∨ m.instruction_memory i = 0xFFFF) :
    (shift_and_fetch junk m).IF_buffer = 0xFFFF := by
  simp only [shift_and_fetch, fetch_instruction, INSTRUCTION_MEMORY_SIZE, NOP_INSTR]
  split
  · rename_i hc
    rcases H m.PC hc.1 with h0 | h1
    · exact absurd h0 hc.2
    · exact h1
  · rfl

/-- The drain counter after a cycle whose fetch yields the sentinel. -/
theorem next_remaining_nop (m : Machine) (remaining : Int) (h : m.IF_buffer = 0xFFFF) :
    next_remaining m remaining = (if remaining = INT32_MAX then 2 else remaining) - 1 := by
  have h2 : m.IF_buffer = NOP_INSTR := h
  unfold next_remaining
  rw [if_pos h2]

theorem cycle_loop_step (junk : Nat → DecodedInstruction) (fuel cycle : Nat)
    (m m1 : Machine) (remaining remaining1 : Int) (hpos : remaining > 0)
    (hb : cycle_body (junk cycle) m remaining = some (m1, remaining1)) :
    cycle_loop junk (fuel + 1) cycle m remaining
      = cycle_loop junk fuel (cycle + 1) m1 remaining1 := by
  simp only [cycle_loop]
  rw [if_pos hpos, hb]

theorem cycle_loop_halt (junk : Nat → DecodedInstruction) (fuel cycle : Nat)
    (m : Machine) (remaining : Int) (h : remaining ≤ 0) :
    cycle_loop junk (fuel + 1) cycle m remaining = RunResult.halted m cycle := by
  simp only [cycle_loop]
  rw [if_neg (by omega)]

/-! ## Round trip through data memory -/

/-- C11: for every state, register indices `a`, `b` and address `imm` in 0..31,
`STR Ra, [imm]` followed by `LDR Rb, [imm]` leaves `R[b]` equal to the value `R[a]`
held before the STR, leaves data cell `imm` holding that value, and changes no
other data cell and no register other than `R[b]`. -/
theorem STR_LDR_round_trip (m : Machine) (a b ra sa rb sb : Nat) (imm : Int)
    (ha : a < 64) (hb : b < 64) (hi : 0 ≤ imm ∧ imm ≤ 31) :
    ∃ m2 : Machine,
      execute_program [⟨11, a, ra, sa, imm⟩, ⟨10, b, rb, sb, imm⟩] m = some m2 ∧
      m2.GPR b = m.GPR a ∧
      m2.data_memory imm.toNat = m.GPR a ∧
      (∀ j : Nat, j ≠ imm.toNat → m2.data_memory j = m.data_memory j) ∧
      (∀ r : Nat, r ≠ b → m2.GPR r = m.GPR r) := by
  have hi2 : 0 ≤ imm ∧ imm < 2048 := ⟨hi.1, by omega⟩
  refine ⟨{ m with data_memory := store m.data_memory imm.toNat (m.GPR a)
                   GPR := store m.GPR b (m.GPR a)
                   PC := (m.PC + 1) % 65536 }, ?_, ?_, ?_, ?_, ?_⟩
  · simp only [execute_program, execute_STR_eq m a ra sa imm ha hi2,
      execute_LDR_eq _ b rb sb imm hb hi2, store_same]
  · exact store_same _ _ _
  · exact store_same _ _ _
  · intro j hj
    exact store_other _ _ _ _ hj
  · intro r hr
    exact store_other _ _ _ _ hr

/-- The round-trip theorem at `STR R3, [6]; LDR R4, [6]` with `R3 = 7`, which gives
`R4 = 7`. -/
theorem STR_LDR_round_trip_witness :
    ((3 : Nat) < 64 ∧ (4 : Nat) < 64 ∧ ((0 : Int) ≤ 6 ∧ (6 : Int) ≤ 31)) ∧
    (∃ m2 : Machine,
      execute_program [⟨11, 3, 6, 0, 6⟩, ⟨10, 4, 6, 0, 6⟩] (with_reg 3 7) = some m2 ∧
      m2.GPR 4 = (with_reg 3 7).GPR 3 ∧
      m2.data_memory (6 : Int).toNat = (with_reg 3 7).GPR 3 ∧
      (∀ j : Nat, j ≠ (6 : Int).toNat → m2.data_memory j = (with_reg 3 7).data_memory j) ∧
      (∀ r : Nat, r ≠ 4 → m2.GPR r = (with_reg 3 7).GPR r)) ∧
    (execute_program [⟨11, 3, 6, 0, 6⟩, ⟨10, 4, 6, 0, 6⟩] (with_reg 3 7)).map
        (fun m2 => (m2.GPR 3, m2.GPR 4, m2.data_memory 6)) = some (7, 7, 7) :=
  ⟨⟨by decide, by decide, by decide, by decide⟩,
   STR_LDR_round_trip (with_reg 3 7) 3 4 6 0 6 0 6 (by decide) (by decide)
     ⟨by decide, by decide⟩,
   by decide⟩

/-! ## The sign flag -/

/-- C12: after every ADD and every SUB, from any prior flag state and any operands,
the Sign flag equals Negative XOR Overflow. -/
theorem sign_flag_after_ADD_SUB (m : Machine) (op r1 r2 immshift : Nat) (imm : Int)
    (hop : op = 0 ∨ op = 1) (h1 : r1 < 64) (h2 : r2 < 64) :
    ∃ m1 : Machine,
      execute_instruction ⟨op, r1, r2, immshift, imm⟩ m = some m1 ∧
      m1.SREG.S = m1.SREG.N ^^^ m1.SREG.V := by
  rcases hop with hop | hop
  · subst hop
    refine ⟨_, by simp only [execute_instruction, NUM_GPRS]; rw [if_pos ⟨h1, h2⟩], ?_⟩
    refine (updateSignFlag_xor _ ?_ ?_).1
    · rw [(updateZeroFlag_fields _ _).2.2.2]
      exact (updateNegativeFlag_fields _ _).2.2.2.2
    · rw [(updateZeroFlag_fields _ _).2.1, (updateNegativeFlag_fields _ _).2.1]
      exact (updateOverflowFlag_fields _ _ _ _).2.2.2.2
  · subst hop
    refine ⟨_, by simp only [execute_instruction, NUM_GPRS]; rw [if_pos ⟨h1, h2⟩], ?_⟩
    refine (updateSignFlag_xor _ ?_ ?_).1
    · rw [(updateZeroFlag_fields _ _).2.2.2]
      exact (updateNegativeFlag_fields _ _).2.2.2.2
    · rw [(updateZeroFlag_fields _ _).2.1, (updateNegativeFlag_fields _ _).2.1]
      exact (updateOverflowFlag_fields _ _ _ _).2.2.2.2

/-- The ADD/SUB sign-flag theorem at `SUB R1, R2` with `R1 = 3`, `R2 = 5`, with the
resulting flags there and for `ADD R1, R2` with `R1 = R2 = 100`. -/
theorem sign_flag_after_ADD_SUB_witness :
    (((1 : Nat) = 0 ∨ (1 : Nat) = 1) ∧ (1 : Nat) < 64 ∧ (2 : Nat) < 64) ∧
    (∃ m1 : Machine,
      execute_instruction ⟨1, 1, 2, 0, 0⟩ (with_R1_R2 3 5) = some m1 ∧
      m1.SREG.S = m1.SREG.N ^^^ m1.SREG.V) ∧
    ((execute_instruction ⟨1, 1, 2, 0, 0⟩ (with_R1_R2 3 5)).map
        (fun m1 => (m1.SREG.N, m1.SREG.V, m1.SREG.S)) = some (1, 0, 1) ∧
     (execute_instruction ⟨0, 1, 2, 0, 0⟩ (with_R1_R2 100 100)).map
        (fun m1 => (m1.SREG.N, m1.SREG.V, m1.SREG.S)) = some (1, 1, 0)) :=
  ⟨⟨by decide, by decide, by decide⟩,
   sign_flag_after_ADD_SUB (with_R1_R2 3 5) 1 1 2 0 0 (by decide) (by decide) (by decide),
   by decide⟩

/-- C15: for every register value `v` and shift amount `s` in 0..7 such that
`v * 2^s` fits in a signed 8-bit value, `SAL R, s` yields `v * 2^s` and the following
`SAR R, s` leaves `R` equal to `v` (and every other register as it was). -/
theorem SAL_SAR_round_trip (m : Machine) (r s ra rb : Nat) (ia ib : Int)
    (hr : r < 64) (hs : s ≤ 7)
    (hfit : -128 ≤ m.GPR r * 2 ^ s ∧ m.GPR r * 2 ^ s ≤ 127) :
    ∃ m1 m2 : Machine,
      execute_instruction ⟨8, r, ra, s, ia⟩ m = some m1 ∧
      execute_instruction ⟨9, r, rb, s, ib⟩ m1 = some m2 ∧
      execute_program [⟨8, r, ra, s, ia⟩, ⟨9, r, rb, s, ib⟩] m = some m2 ∧
      m1.GPR r = m.GPR r * 2 ^ s ∧
      (∀ q : Nat, m2.GPR q = m.GPR q) := by
  have hs32 : s < 32 := by omega
  have hl := int_shl_of_fits (m.GPR r) s hs hfit
  have e1 := execute_SAL_eq m r ra s ia hr hs32
  rw [hl] at e1
  have e2 := execute_SAR_eq
    { m with
        GPR := store m.GPR r (m.GPR r * 2 ^ s)
        SREG := updateZeroFlag (updateNegativeFlag m.SREG (m.GPR r * 2 ^ s))
          (m.GPR r * 2 ^ s) } r rb s ib hr hs32
  have hv : -128 ≤ m.GPR r ∧ m.GPR r ≤ 127 := fits_range (m.GPR r) s hs hfit
  simp only [store_same, int_shr_mul, to_int8_of_range _ hv] at e2
  refine ⟨_, _, e1, e2, ?_, store_same _ _ _, ?_⟩
  · simp only [execute_program, e1, e2]
  · intro q
    by_cases hq : q = r
    · subst hq
      simp [store]
    · simp [store, hq]

/-- The shift round-trip theorem at `R4 = 7` and shift amount 1: SAL gives 14, SAR
gives 7. -/
theorem SAL_SAR_round_trip_witness :
    ((4 : Nat) < 64 ∧ (1 : Nat) ≤ 7 ∧
      (-128 ≤ (with_reg 4 7).GPR 4 * 2 ^ 1 ∧ (with_reg 4 7).GPR 4 * 2 ^ 1 ≤ 127)) ∧
    (∃ m1 m2 : Machine,
      execute_instruction ⟨8, 4, 1, 1, 0⟩ (with_reg 4 7) = some m1 ∧
      execute_instruction ⟨9, 4, 1, 1, 0⟩ m1 = some m2 ∧
      execute_program [⟨8, 4, 1, 1, 0⟩, ⟨9, 4, 1, 1, 0⟩] (with_reg 4 7) = some m2 ∧
      m1.GPR 4 = (with_reg 4 7).GPR 4 * 2 ^ 1 ∧
      (∀ q : Nat, m2.GPR q = (with_reg 4 7).GPR q)) ∧
    ((execute_program [⟨8, 4, 1, 1, 0⟩] (with_reg 4 7)).map (fun m1 => m1.GPR 4) = some 14 ∧
     (execute_program [⟨8, 4, 1, 1, 0⟩, ⟨9, 4, 1, 1, 0⟩] (with_reg 4 7)).map
        (fun m2 => m2.GPR 4) = some 7) :=
  ⟨⟨by decide, by decide, by decide, by decide⟩,
   SAL_SAR_round_trip (with_reg 4 7) 4 1 1 1 0 0 (by decide) (by decide)
     ⟨by decide, by decide⟩,
   by decide⟩

/-! ## Fetch -/

/-- C16: if `PC < 1024` and the cell at PC is non-zero, `fetch_instruction` returns
that word and a state that differs only in PC, which is `PC + 1`; otherwise it
returns the sentinel 0xFFFF and the state unchanged. -/
theorem fetch_instruction_result (m : Machine) :
    fetch_instruction m
      = if m.PC < 1024 ∧ m.instruction_memory m.PC ≠ 0 then
          (m.instruction_memory m.PC, { m with PC := m.PC + 1 })
        else (0xFFFF, m) := by
  unfold fetch_instruction INSTRUCTION_MEMORY_SIZE NOP_INSTR
  by_cases h : m.PC < 1024 ∧ m.instruction_memory m.PC ≠ 0
  · have hp : (m.PC + 1) % 65536 = m.PC + 1 := Nat.mod_eq_of_lt (by omega)
    rw [if_pos h, if_pos h, hp]
  · rw [if_neg h, if_neg h]

/-! ## Memory loading -/

/-- C17 (amended): `load_instruction` with an address of 1024 or more and `load_data`
with an address of 2048 or more leave the whole state unchanged; with an in-range
address `load_instruction` sets exactly the addressed instruction cell to `v`, and
`load_data` sets exactly the addressed data cell to the byte `w` converted to a
signed 8-bit value (`w` below 128, `w - 256` from 128 on, the same 8-bit pattern);
every other cell of both memories is unchanged. -/
theorem load_memory_cells (m : Machine) (addr v w : Nat) (hw : w < 256) :
    (1024 ≤ addr → load_instruction m addr v = m) ∧
    (2048 ≤ addr → load_data m addr w = m) ∧
    (addr < 1024 →
      (load_instruction m addr v).instruction_memory addr = v ∧
      (∀ j : Nat, j ≠ addr →
        (load_instruction m addr v).instruction_memory j = m.instruction_memory j) ∧
      (load_instruction m addr v).data_memory = m.data_memory) ∧
    (addr < 2048 →
      (load_data m addr w).data_memory addr
        = (if w < 128 then (w : Int) else (w : Int) - 256) ∧
      to_uint8 ((load_data m addr w).data_memory addr) = w ∧
      (∀ j : Nat, j ≠ addr → (load_data m addr w).data_memory j = m.data_memory j) ∧
      (load_data m addr w).instruction_memory = m.instruction_memory) := by
  refine ⟨?_, ?_, ?_, ?_⟩
  · intro h
    unfold load_instruction INSTRUCTION_MEMORY_SIZE
    rw [if_neg (by omega)]
  · intro h
    unfold load_data DATA_MEMORY_SIZE
    rw [if_neg (by omega)]
  · intro h
    unfold load_instruction INSTRUCTION_MEMORY_SIZE
    rw [if_pos h]
    exact ⟨store_same _ _ _, fun j hj => store_other _ _ _ _ hj, rfl⟩
  · intro h
    unfold load_data DATA_MEMORY_SIZE
    rw [if_pos h]
    refine ⟨?_, ?_, fun j hj => store_other _ _ _ _ hj, rfl⟩
    · show store m.data_memory addr (to_int8 (w : Int)) addr = _
      rw [store_same]
      unfold to_int8
      split <;> omega
    · show to_uint8 (store m.data_memory addr (to_int8 (w : Int)) addr) = w
      rw [store_same, to_uint8_to_int8]
      unfold to_uint8
      omega

/-- The memory-loading theorem at address 5 with the word 0x3045 and the byte 200,
together with dropped writes at addresses 1024 and 2048. -/
theorem load_memory_cells_witness :
    (200 : Nat) < 256 ∧
    ((1024 ≤ 5 → load_instruction resetAll 5 0x3045 = resetAll) ∧
     (2048 ≤ 5 → load_data resetAll 5 200 = resetAll) ∧
     (5 < 1024 →
      (load_instruction resetAll 5 0x3045).instruction_memory 5 = 0x3045 ∧
      (∀ j : Nat, j ≠ 5 →
        (load_instruction resetAll 5 0x3045).instruction_memory j
          = resetAll.instruction_memory j) ∧
      (load_instruction resetAll 5 0x3045).data_memory = resetAll.data_memory) ∧
     (5 < 2048 →
      (load_data resetAll 5 200).data_memory 5
        = (if 200 < 128 then ((200 : Nat) : Int) else ((200 : Nat) : Int) - 256) ∧
      to_uint8 ((load_data resetAll 5 200).data_memory 5) = 200 ∧
      (∀ j : Nat, j ≠ 5 → (load_data resetAll 5 200).data_memory j = resetAll.data_memory j) ∧
      (load_data resetAll 5 200).instruction_memory = resetAll.instruction_memory)) ∧
    ((load_instruction resetAll 1024 0x3045).instruction_memory 0 = 0 ∧
     (load_data resetAll 2048 200).data_memory 0 = 0 ∧
     (load_data resetAll 5 100).data_memory 5 = 100) :=
  ⟨by decide, load_memory_cells resetAll 5 0x3045 200 (by decide), by decide⟩

/-- C17 (counterexample): `load_data(0, 200)` leaves data cell 0 holding -56, not
200. -/
theorem load_data_200 :
    (load_data resetAll 0 200).data_memory 0 = -56 ∧
    (load_data resetAll 0 200).data_memory 0 ≠ 200 := by
  decide

/-! ## Empty programs -/

/-- C18: on an instruction memory whose cells are all zero or the sentinel 0xFFFF,
`run_pipeline` halts after exactly 2 cycles (given fuel for them), with registers,
flags and data memory as they were at the start. -/
theorem run_pipeline_no_program (junk : Nat → DecodedInstruction) (fuel : Nat) (m : Machine)
    (H : ∀ i : Nat, i < 1024 →
      m.instruction_memory i = 0 ∨ m.instruction_memory i = 0xFFFF) :
    ∃ m2 : Machine,
      run_pipeline junk (fuel + 3) m = RunResult.halted m2 2 ∧
      m2.GPR = m.GPR ∧ m2.SREG = m.SREG ∧ m2.data_memory = m.data_memory := by
  obtain ⟨m0, hm0⟩ : ∃ m0 : Machine, m0 =
      { m with skipped := 0, IF_buffer := NOP_INSTR, ID_buffer := NOP_INSTR,
               EX_buffer := ⟨0xFF, 0, 0, 0, 0⟩ } := ⟨_, rfl⟩
  have hrun : run_pipeline junk (fuel + 3) m = cycle_loop junk (fuel + 3) 0 m0 INT32_MAX := by
    rw [hm0]; rfl
  have H0 : ∀ i : Nat, i < 1024 →
      m0.instruction_memory i = 0 ∨ m0.instruction_memory i = 0xFFFF := by
    rw [hm0]; exact H
  -- first cycle
  have f1 := shift_and_fetch_frame (junk 0) m0
  have i1 := shift_and_fetch_no_program (junk 0) m0 H0
  have c1 := cycle_body_idle (junk 0) m0 INT32_MAX (by simp [hm0]) (by simp [hm0, NOP_INSTR])
  have r1 : next_remaining (shift_and_fetch (junk 0) m0) INT32_MAX = 1 := by
    rw [next_remaining_nop _ _ i1, if_pos rfl]
    rfl
  rw [r1] at c1
  -- second cycle
  have H1 : ∀ i : Nat, i < 1024 →
      (shift_and_fetch (junk 0) m0).instruction_memory i = 0 ∨
      (shift_and_fetch (junk 0) m0).instruction_memory i = 0xFFFF := by
    rw [f1.2.2.2.1]; exact H0
  have f2 := shift_and_fetch_frame (junk 1) (shift_and_fetch (junk 0) m0)
  have i2 := shift_and_fetch_no_program (junk 1) (shift_and_fetch (junk 0) m0) H1
  have c2 := cycle_body_idle (junk 1) (shift_and_fetch (junk 0) m0) 1
    (by rw [f1.2.2.2.2.1]; simp [hm0]) (by rw [f1.2.2.2.2.2.2]; simp [hm0, NOP_INSTR])
  have r2 : next_remaining (shift_and_fetch (junk 1) (shift_and_fetch (junk 0) m0)) 1 = 0 := by
    rw [next_remaining_nop _ _ i2, if_neg (by decide)]
    rfl
  rw [r2] at c2
  refine ⟨shift_and_fetch (junk 1) (shift_and_fetch (junk 0) m0), ?_, ?_, ?_, ?_⟩
  · rw [hrun, cycle_loop_step junk (fuel + 2) 0 _ _ _ _ (by decide) c1,
      cycle_loop_step junk (fuel + 1) 1 _ _ _ _ (by decide) c2,
      cycle_loop_halt junk fuel 2 _ 0 (by decide)]
  · rw [f2.1, f1.1, hm0]
  · rw [f2.2.1, f1.2.1, hm0]
  · rw [f2.2.2.1, f1.2.2.1, hm0]

/-- The empty-program theorem at the reset state, and the run of the program
consisting of two sentinel words. -/
theorem run_pipeline_no_program_witness :
    (∀ i : Nat, i < 1024 →
      resetAll.instruction_memory i = 0 ∨ resetAll.instruction_memory i = 0xFFFF) ∧
    (∃ m2 : Machine,
      run_pipeline (fun _ => ⟨0, 0, 0, 0, 0⟩) (0 + 3) resetAll = RunResult.halted m2 2 ∧
      m2.GPR = resetAll.GPR ∧ m2.SREG = resetAll.SREG ∧
      m2.data_memory = resetAll.data_memory) ∧
    (final_cycles (run_pipeline (fun _ => ⟨0, 0, 0, 0, 0⟩) 3 (with_program [0xFFFF, 0xFFFF]))
        = some 2 ∧
     final_registers 4 (run_pipeline (fun _ => ⟨0, 0, 0, 0, 0⟩) 3
        (with_program [0xFFFF, 0xFFFF])) = some [0, 0, 0, 0]) :=
  ⟨fun _ _ => Or.inl rfl,
   run_pipeline_no_program (fun _ => ⟨0, 0, 0, 0, 0⟩) 0 resetAll (fun _ _ => Or.inl rfl),
   by decide⟩

/-! ## Halting with an instruction in flight -/

/-- C19 (failing inputs): the program `0xFFFF; MOVI R1, 1; MOVI R2, 1; MOVI R3, 1;
MOVI R4, 1` halts after 6 cycles with `MOVI R4, 1` (0x3101) in the ID buffer and
`R4 = 0`; the program `MOVI R5, 2; MOVI R6, 1; MOVI R2, 3; SUB R5, R6; BEQZ R5, 1;
BR R0, R2; MOVI R7, 1` halts after 13 cycles with `MOVI R7, 1` (0x31C1) in the ID
buffer and `R7 = 0`. -/
theorem run_pipeline_halts_with_instruction_in_ID :
    ((final_state (run_pipeline (fun _ => ⟨0, 0, 0, 0, 0⟩) 20
        (with_program [0xFFFF, 0x3041, 0x3081, 0x30C1, 0x3101]))).map
        (fun m => (m.ID_buffer, m.GPR 1, m.GPR 2, m.GPR 3, m.GPR 4))
      = some (0x3101, 1, 1, 1, 0) ∧
     final_cycles (run_pipeline (fun _ => ⟨0, 0, 0, 0, 0⟩) 20
        (with_program [0xFFFF, 0x3041, 0x3081, 0x30C1, 0x3101])) = some 6 ∧
     decode_instruction ⟨0, 0, 0, 0, 0⟩ 0x3101 = ⟨3, 4, 1, 0, 1⟩) ∧
    ((final_state (run_pipeline (fun _ => ⟨0, 0, 0, 0, 0⟩) 20
        (with_program [0x3142, 0x3181, 0x3083, 0x1146, 0x4141, 0x7002, 0x31C1]))).map
        (fun m => (m.ID_buffer, m.GPR 5, m.GPR 7))
      = some (0x31C1, 0, 0) ∧
     final_cycles (run_pipeline (fun _ => ⟨0, 0, 0, 0, 0⟩) 20
        (with_program [0x3142, 0x3181, 0x3083, 0x1146, 0x4141, 0x7002, 0x31C1])) = some 13 ∧
     decode_instruction ⟨0, 0, 0, 0, 0⟩ 0x31C1 = ⟨3, 7, 1, 0, 1⟩) := by
  decide

/-! ## BR in the pipeline -/

/-- C20: executing BR sets the IF and ID buffers to the sentinel 0xFFFF, whatever
they held and whatever the registers hold, and leaves the skip counter, registers,
flags and data memory alone; in each of the two following cycles EX holds the NOP
tag and nothing is executed. -/
theorem BR_flushes_IF_ID (m : Machine) (r1 r2 immshift : Nat) (imm : Int)
    (j2 j3 : DecodedInstruction) (remaining : Int) (h1 : r1 < 64) (h2 : r2 < 64) :
    ∃ (m1 m2 m3 : Machine) (remaining2 remaining3 : Int),
      execute_instruction ⟨7, r1, r2, immshift, imm⟩ m = some m1 ∧
      m1.IF_buffer = 0xFFFF ∧ m1.ID_buffer = 0xFFFF ∧
      m1.skipped = m.skipped ∧ m1.GPR = m.GPR ∧ m1.SREG = m.SREG ∧
      m1.data_memory = m.data_memory ∧
      cycle_body j2 m1 remaining = some (m2, remaining2) ∧ m2.EX_buffer.opcode = 0xFF ∧
      cycle_body j3 m2 remaining2 = some (m3, remaining3) ∧ m3.EX_buffer.opcode = 0xFF ∧
      m3.GPR = m.GPR ∧ m3.SREG = m.SREG ∧ m3.data_memory = m.data_memory := by
  have e1 := execute_BR_eq m r1 r2 immshift imm h1 h2
  obtain ⟨m2, rem2, c2, x2, id2, g2, s2, d2⟩ :=
    cycle_body_nop_in_ID j2
      { m with PC := to_uint16 (int_or (int_shl (m.GPR r1) 8) (m.GPR r2))
               IF_buffer := 0xFFFF
               ID_buffer := 0xFFFF } remaining rfl
  obtain ⟨m3, rem3, c3, x3, _, g3, s3, d3⟩ :=
    cycle_body_nop_in_ID j3 m2 rem2 (by rw [id2])
  exact ⟨_, m2, m3, rem2, rem3, e1, rfl, rfl, rfl, rfl, rfl, rfl, c2, x2, c3, x3,
    by rw [g3, g2], by rw [s3, s2], by rw [d3, d2]⟩

/-- The BR theorem at `BR R1, R2` executed with 0x30C1 in IF and 0x4042 in ID. -/
theorem BR_flushes_IF_ID_witness :
    ((1 : Nat) < 64 ∧ (2 : Nat) < 64) ∧
    (∃ (m1 m2 m3 : Machine) (remaining2 remaining3 : Int),
      execute_instruction ⟨7, 1, 2, 0, 0⟩ beqz_sample = some m1 ∧
      m1.IF_buffer = 0xFFFF ∧ m1.ID_buffer = 0xFFFF ∧
      m1.skipped = beqz_sample.skipped ∧ m1.GPR = beqz_sample.GPR ∧
      m1.SREG = beqz_sample.SREG ∧ m1.data_memory = beqz_sample.data_memory ∧
      cycle_body ⟨0, 0, 0, 0, 0⟩ m1 INT32_MAX = some (m2, remaining2) ∧
      m2.EX_buffer.opcode = 0xFF ∧
      cycle_body ⟨0, 0, 0, 0, 0⟩ m2 remaining2 = some (m3, remaining3) ∧
      m3.EX_buffer.opcode = 0xFF ∧
      m3.GPR = beqz_sample.GPR ∧ m3.SREG = beqz_sample.SREG ∧
      m3.data_memory = beqz_sample.data_memory) ∧
    ((beqz_sample.IF_buffer = 0x30C1 ∧ beqz_sample.ID_buffer = 0x4042) ∧
     (execute_instruction ⟨7, 1, 2, 0, 0⟩ beqz_sample).map
        (fun m1 => (m1.IF_buffer, m1.ID_buffer, m1.PC)) = some (0xFFFF, 0xFFFF, 0)) :=
  ⟨⟨by decide, by decide⟩,
   BR_flushes_IF_ID beqz_sample 1 2 0 0 ⟨0, 0, 0, 0, 0⟩ ⟨0, 0, 0, 0, 0⟩ INT32_MAX
     (by decide) (by decide),
   by decide⟩

/-! ## Straight-line programs -/

/-- Outside BEQZ, BR and LDR, execution reads and writes only the registers, the
flags and the data memory: it commutes with any change of the other globals. -/
theorem execute_with_frame (d : DecodedInstruction) (s : Machine)
    (im : Nat → Nat) (k : Int) (pc a b : Nat) (e : DecodedInstruction)
    (h4 : d.opcode ≠ 4) (h7 : d.opcode ≠ 7) (h10 : d.opcode ≠ 10) :
    execute_instruction d
        { s with instruction_memory := im, skipped := k, PC := pc, IF_buffer := a,
                 ID_buffer := b, EX_buffer := e }
      = (execute_instruction d s).map (fun s1 =>
          { s1 with instruction_memory := im, skipped := k, PC := pc, IF_buffer := a,
                    ID_buffer := b, EX_buffer := e }) := by
  obtain ⟨op, r1, r2, sh, imm⟩ := d
  simp only [execute_instruction]
  split
  all_goals first
    | exact absurd rfl h4
    | exact absurd rfl h7
    | exact absurd rfl h10
    | rfl
    | (split <;> rfl)

/-- The same on a platform, for every shift count, as long as an STR stays inside
the data memory. -/
theorem execute_on_with_frame (p : Platform) (d : DecodedInstruction) (s : Machine)
    (im : Nat → Nat) (k : Int) (pc a b : Nat) (e : DecodedInstruction)
    (h4 : d.opcode ≠ 4) (h7 : d.opcode ≠ 7) (h10 : d.opcode ≠ 10)
    (h11 : d.opcode = 11 → 0 ≤ d.imm ∧ d.imm < 2048) :
    execute_instruction_on p d
        { s with instruction_memory := im, skipped := k, PC := pc, IF_buffer := a,
                 ID_buffer := b, EX_buffer := e }
      = (execute_instruction_on p d s).map (fun s1 =>
          { s1 with instruction_memory := im, skipped := k, PC := pc, IF_buffer := a,
                    ID_buffer := b, EX_buffer := e }) := by
  obtain ⟨op, r1, r2, sh, imm⟩ := d
  simp only [execute_instruction_on, DATA_MEMORY_SIZE]
  split
  · split <;> rfl
  · split <;> rfl
  · exact absurd rfl h10
  · have hin : 0 ≤ imm ∧ imm < ((2048 : Nat) : Int) := h11 rfl
    rw [if_pos hin]
    split <;> rfl
  · exact execute_with_frame _ s im k pc a b e h4 h7 h10

/-- The decoder on a word other than the sentinel, in one expression: SAL and SAR
receive the shift amount and keep the indeterminate immediate, every other opcode
receives the sign-extended immediate and keeps the indeterminate shift amount. -/
theorem decode_instruction_eq (j : DecodedInstruction) (w : Nat) (hw : w ≠ 0xFFFF) :
    decode_instruction j w
      = if OPCODE w = 8 ∨ OPCODE w = 9 then
          ⟨OPCODE w, R1_INDEX w, R2_INDEX w, IMM_VALUE w % 256, j.imm⟩
        else
          ⟨OPCODE w, R1_INDEX w, R2_INDEX w, j.immshift,
            if IMM_VALUE w &&& 32 ≠ 0 then to_int8 ((IMM_VALUE w ||| 192 : Nat) : Int)
            else to_int8 ((IMM_VALUE w &&& 63 : Nat) : Int)⟩ := by
  have hw2 : ¬ (w = NOP_INSTR) := hw
  unfold decode_instruction
  rw [if_neg hw2]
  dsimp only
  by_cases hs : OPCODE w = 8 ∨ OPCODE w = 9
  · rw [if_pos hs, if_pos hs]
  · rw [if_neg hs, if_neg hs]
    by_cases hb : IMM_VALUE w &&& 32 ≠ 0
    · rw [if_pos hb, if_pos hb]
    · rw [if_neg hb, if_neg hb]

/-- What the execute stage does with a decoded word does not depend on the fields
the decoder left unassigned. -/
theorem execute_on_decode_junk (p : Platform) (j j2 : DecodedInstruction) (w : Nat)
    (m : Machine) (hw : w ≠ 0xFFFF) :
    execute_instruction_on p (decode_instruction j w) m
      = execute_instruction_on p (decode_instruction j2 w) m := by
  have hlt : OPCODE w < 16 := by rw [OPCODE_eq]; exact Nat.mod_lt _ (by decide)
  rw [decode_instruction_eq j w hw, decode_instruction_eq j2 w hw]
  by_cases hs : OPCODE w = 8 ∨ OPCODE w = 9
  · rw [if_pos hs, if_pos hs]
    rcases hs with h | h <;> rw [h] <;> simp only [execute_instruction_on]
  · rw [if_neg hs, if_neg hs]
    generalize OPCODE w = op at hlt hs
    interval_cases op <;> first
      | exact absurd (Or.inl rfl) hs
      | exact absurd (Or.inr rfl) hs
      | simp only [execute_instruction_on, execute_instruction]

/-- The decoded opcode of a word other than the sentinel is its top four bits. -/
theorem decode_instruction_opcode (j : DecodedInstruction) (w : Nat) (hw : w ≠ 0xFFFF) :
    (decode_instruction j w).opcode = OPCODE w := by
  rw [decode_instruction_eq j w hw]
  split <;> rfl

/-- The immediate an STR word with a field below 32 decodes to is the field. -/
theorem decode_STR_in_range (j : DecodedInstruction) (w : Nat) (hw : w ≠ 0xFFFF)
    (hop : OPCODE w = 11) (hf : IMM_VALUE w < 32) :
    0 ≤ (decode_instruction j w).imm ∧ (decode_instruction j w).imm < 2048 := by
  have hf64 : IMM_VALUE w < 64 := by omega
  obtain ⟨h32, h63, _, _, hpos⟩ := field_sign_extend (IMM_VALUE w) hf64
  have hb : ¬ (IMM_VALUE w &&& 32 ≠ 0) := fun hc => absurd (h32.mp hc) (by omega)
  rw [decode_instruction_eq j w hw, if_neg (by omega)]
  show 0 ≤ (if IMM_VALUE w &&& 32 ≠ 0 then to_int8 ((IMM_VALUE w ||| 192 : Nat) : Int)
        else to_int8 ((IMM_VALUE w &&& 63 : Nat) : Int)) ∧
      (if IMM_VALUE w &&& 32 ≠ 0 then to_int8 ((IMM_VALUE w ||| 192 : Nat) : Int)
        else to_int8 ((IMM_VALUE w &&& 63 : Nat) : Int)) < 2048
  rw [if_neg hb, h63, hpos hf]
  omega

/-- On a platform the execute stage is defined on every decoded word other than
the sentinel. -/
theorem execute_on_decoded_defined (p : Platform) (j : DecodedInstruction) (w : Nat)
    (t : Machine) (hw : w ≠ 0xFFFF) :
    ∃ t1 : Machine, execute_instruction_on p (decode_instruction j w) t = some t1 := by
  have hr1 : R1_INDEX w < 64 := by rw [R1_INDEX_eq]; exact Nat.mod_lt _ (by decide)
  have hr2 : R2_INDEX w < 64 := by rw [R2_INDEX_eq]; exact Nat.mod_lt _ (by decide)
  rw [decode_instruction_eq j w hw]
  split
  · exact execute_instruction_on_defined p _ t (fun _ => hr1) (fun _ => hr2)
  · exact execute_instruction_on_defined p _ t (fun _ => hr1) (fun _ => hr2)

/-- A machine is determined by its core and its other globals. -/
theorem same_core_eq (s t : Machine) (h : same_core s t) :
    s = { t with instruction_memory := s.instruction_memory, skipped := s.skipped,
                 PC := s.PC, IF_buffer := s.IF_buffer, ID_buffer := s.ID_buffer,
                 EX_buffer := s.EX_buffer } := by
  obtain ⟨hg, hs, hd⟩ := h
  obtain ⟨im, dm, sk, g, sr, pc, i, d, e⟩ := s
  simp only at hg hs hd
  subst hg hs hd
  rfl

/-- Outside BEQZ, BR, LDR and an STR that leaves the data memory, execution on
machines with the same core yields machines with the same core and leaves the other
globals alone. -/
theorem execute_on_same_core (p : Platform) (d : DecodedInstruction) (s t t1 : Machine)
    (h : same_core s t) (h4 : d.opcode ≠ 4) (h7 : d.opcode ≠ 7) (h10 : d.opcode ≠ 10)
    (h11 : d.opcode = 11 → 0 ≤ d.imm ∧ d.imm < 2048)
    (ht : execute_instruction_on p d t = some t1) :
    ∃ s1 : Machine, execute_instruction_on p d s = some s1 ∧ same_core s1 t1 ∧
      s1.instruction_memory = s.instruction_memory ∧ s1.skipped = s.skipped ∧
      s1.PC = s.PC ∧ s1.IF_buffer = s.IF_buffer ∧ s1.ID_buffer = s.ID_buffer := by
  have he := execute_on_with_frame p d t s.instruction_memory s.skipped s.PC s.IF_buffer
    s.ID_buffer s.EX_buffer h4 h7 h10 h11
  rw [← same_core_eq s t h, ht] at he
  exact ⟨_, he, ⟨rfl, rfl, rfl⟩, rfl, rfl, rfl, rfl, rfl⟩

/-- Executing the decoded sentinel changes nothing: its opcode 0xFF falls to the
default case. -/
theorem execute_on_decode_NOP (p : Platform) (j : DecodedInstruction) (t : Machine) :
    execute_instruction_on p (decode_instruction j 0xFFFF) t = some t := by
  have hd : decode_instruction j 0xFFFF = ⟨0xFF, 0, 0, j.immshift, 0⟩ := by
    simp [decode_instruction, NOP_INSTR]
  rw [hd]
  exact execute_instruction_on_of_defined p _ t t
    (execute_default 0xFF 0 0 j.immshift 0 t (by decide))

/-- The first phase of a cycle when the fetch finds no instruction. -/
theorem shift_and_fetch_miss (junk : DecodedInstruction) (m : Machine)
    (h : ¬ (m.PC < 1024 ∧ m.instruction_memory m.PC ≠ 0)) :
    (shift_and_fetch junk m).IF_buffer = 0xFFFF ∧ (shift_and_fetch junk m).PC = m.PC := by
  simp only [shift_and_fetch, fetch_instruction, INSTRUCTION_MEMORY_SIZE, NOP_INSTR]
  rw [if_neg h]
  exact ⟨rfl, rfl⟩

/-- The loop body on a platform in terms of its two phases. -/
theorem cycle_body_on_eq (p : Platform) (junk : DecodedInstruction) (m : Machine)
    (remaining : Int) :
    cycle_body_on p junk m remaining
      = if (shift_and_fetch junk m).skipped > 0 then
          some ({ shift_and_fetch junk m with
                    skipped := (shift_and_fetch junk m).skipped - 1 },
                next_remaining (shift_and_fetch junk m) remaining)
        else if (shift_and_fetch junk m).EX_buffer.opcode = 0xFF then
          some (shift_and_fetch junk m, next_remaining (shift_and_fetch junk m) remaining)
        else
          (execute_instruction_on p (shift_and_fetch junk m).EX_buffer
              (shift_and_fetch junk m)).map
            (fun m1 => (m1, next_remaining (shift_and_fetch junk m) remaining)) := by
  rfl

/-- An idle cycle on a platform: nothing to skip and the sentinel in ID. -/
theorem cycle_body_on_idle (p : Platform) (junk : DecodedInstruction) (m : Machine)
    (remaining : Int) (hsk : m.skipped ≤ 0) (hID : m.ID_buffer = 0xFFFF) :
    cycle_body_on p junk m remaining
      = some (shift_and_fetch junk m, next_remaining (shift_and_fetch junk m) remaining) := by
  have hf := shift_and_fetch_frame junk m
  have he : (shift_and_fetch junk m).EX_buffer.opcode = 0xFF := by
    rw [hf.2.2.2.2.2.1, hID]
    exact decode_NOP junk
  rw [cycle_body_on_eq, hf.2.2.2.2.1, if_neg (by omega), if_pos he]

/-- A cycle on a platform entered with a non-positive skip counter and a word other
than the sentinel in ID executes the decoding of that word. -/
theorem cycle_body_on_executing (p : Platform) (junk : DecodedInstruction) (m : Machine)
    (remaining : Int) (h : m.skipped ≤ 0) (hw : m.ID_buffer ≠ 0xFFFF) :
    cycle_body_on p junk m remaining
      = (execute_instruction_on p (decode_instruction junk m.ID_buffer)
            (shift_and_fetch junk m)).map
          (fun m1 => (m1, next_remaining (shift_and_fetch junk m) remaining)) := by
  have hs : (shift_and_fetch junk m).skipped = m.skipped :=
    (shift_and_fetch_frame junk m).2.2.2.2.1
  have he : (shift_and_fetch junk m).EX_buffer = decode_instruction junk m.ID_buffer :=
    (shift_and_fetch_frame junk m).2.2.2.2.2.1
  rw [cycle_body_on_eq, hs, if_neg (by omega), he, if_neg (decode_opcode_ne_nop junk _ hw)]

theorem cycle_loop_on_step (p : Platform) (junk : Nat → DecodedInstruction)
    (fuel cycle : Nat) (m m1 : Machine) (remaining remaining1 : Int) (hpos : remaining > 0)
    (hb : cycle_body_on p (junk cycle) m remaining = some (m1, remaining1)) :
    cycle_loop_on p junk (fuel + 1) cycle m remaining
      = cycle_loop_on p junk fuel (cycle + 1) m1 remaining1 := by
  simp only [cycle_loop_on]
  rw [if_pos hpos, hb]

theorem cycle_loop_on_halt (p : Platform) (junk : Nat → DecodedInstruction)
    (fuel cycle : Nat) (m : Machine) (remaining : Int) (h : remaining ≤ 0) :
    cycle_loop_on p junk (fuel + 1) cycle m remaining = RunResult.halted m cycle := by
  simp only [cycle_loop_on]
  rw [if_neg (by omega)]

/-- One cycle of a straight-line run: the word leaving ID is executed (or is the
sentinel and nothing happens) exactly as in sequential execution, and the other
globals are those left by the shift and the fetch. -/
theorem cycle_body_straight (p : Platform) (jc j : DecodedInstruction) (s t : Machine)
    (remaining : Int) (a : Nat) (ha : a = 0xFFFF ∨ straight_line_word a)
    (hsk : s.skipped = 0) (hID : s.ID_buffer = a) (hcore : same_core s t) :
    ∃ s1 t1 : Machine,
      cycle_body_on p jc s remaining
        = some (s1, next_remaining (shift_and_fetch jc s) remaining) ∧
      execute_instruction_on p (decode_instruction j a) t = some t1 ∧ same_core s1 t1 ∧
      s1.instruction_memory = s.instruction_memory ∧ s1.skipped = 0 ∧
      s1.PC = (shift_and_fetch jc s).PC ∧
      s1.IF_buffer = (shift_and_fetch jc s).IF_buffer ∧
      s1.ID_buffer = s.IF_buffer := by
  have hf := shift_and_fetch_frame jc s
  have hcore2 : same_core (shift_and_fetch jc s) t :=
    ⟨hf.1.trans hcore.1, hf.2.1.trans hcore.2.1, hf.2.2.1.trans hcore.2.2⟩
  rcases ha with ha | ha
  · refine ⟨shift_and_fetch jc s, t, ?_, ?_, hcore2, hf.2.2.2.1, ?_, rfl, rfl,
      hf.2.2.2.2.2.2⟩
    · exact cycle_body_on_idle p jc s remaining (by omega) (by rw [hID, ha])
    · rw [ha]
      exact execute_on_decode_NOP p j t
    · rw [hf.2.2.2.2.1, hsk]
  · have hnop := ha.2.1
    have h4 := ha.2.2.1
    have h7 := ha.2.2.2.1
    have h10 := ha.2.2.2.2.1
    have hstr := ha.2.2.2.2.2
    obtain ⟨t1, ht1⟩ := execute_on_decoded_defined p j a t hnop
    have ht1c : execute_instruction_on p (decode_instruction jc a) t = some t1 := by
      rw [execute_on_decode_junk p jc j a t hnop]; exact ht1
    have hop := decode_instruction_opcode jc a hnop
    obtain ⟨s1, hs1, hc1, him, hsk1, hpc1, hif1, hid1⟩ :=
      execute_on_same_core p (decode_instruction jc a) (shift_and_fetch jc s) t t1 hcore2
        (by rw [hop]; exact h4) (by rw [hop]; exact h7) (by rw [hop]; exact h10)
        (fun h11 => decode_STR_in_range jc a hnop (by rw [← hop]; exact h11)
          (hstr (by rw [← hop]; exact h11))) ht1c
    refine ⟨s1, t1, ?_, ht1, hc1, him.trans hf.2.2.2.1, ?_, hpc1, hif1,
      hid1.trans hf.2.2.2.2.2.2⟩
    · rw [cycle_body_on_executing p jc s remaining (by omega) (by rw [hID]; exact hnop),
        hID, hs1]
      rfl
    · rw [hsk1, hf.2.2.2.2.1, hsk]

/-- The cycle loop on straight-line code, from any point of the program: with
`done` already fetched, `a` in ID and `b` in IF, the loop runs two cycles more than
there are words left and ends in the state that sequential execution of `a`, `b`
and the remaining words yields. -/
theorem straight_line_loop (p : Platform) (junk : Nat → DecodedInstruction)
    (j : DecodedInstruction) (rest : List Nat) :
    ∀ (done : List Nat) (s t : Machine) (a b cycle fuel : Nat),
      (∀ w ∈ rest, straight_line_word w) →
      (a = 0xFFFF ∨ straight_line_word a) → (b = 0xFFFF ∨ straight_line_word b) →
      s.instruction_memory = (fun i => (done ++ rest).getD i 0) →
      s.PC = done.length → done.length + rest.length ≤ 1024 →
      s.skipped = 0 → s.ID_buffer = a → s.IF_buffer = b → same_core s t →
      ∃ s2 t2 : Machine,
        cycle_loop_on p junk (fuel + rest.length + 3) cycle s INT32_MAX
          = RunResult.halted s2 (cycle + rest.length + 2) ∧
        s2.PC = done.length + rest.length ∧
        execute_program_on p ((a :: b :: rest).map (decode_instruction j)) t = some t2 ∧
        same_core s2 t2 := by
  induction rest with
  | nil =>
    intro done s t a b cycle fuel _ ha hb hmem hpc hlen hsk hID hIF hcore
    have hmiss : ¬ (s.PC < 1024 ∧ s.instruction_memory s.PC ≠ 0) := by
      intro hc
      apply hc.2
      rw [hmem, hpc]
      simp
    obtain ⟨s1, t1, hc1, he1, hcore1, him1, hsk1, hpc1, hif1, hid1⟩ :=
      cycle_body_straight p (junk cycle) j s t INT32_MAX a ha hsk hID hcore
    have hm := shift_and_fetch_miss (junk cycle) s hmiss
    rw [next_remaining_nop _ _ hm.1, if_pos rfl] at hc1
    have hmiss1 : ¬ (s1.PC < 1024 ∧ s1.instruction_memory s1.PC ≠ 0) := by
      rw [hpc1, hm.2, him1]; exact hmiss
    obtain ⟨s2, t2, hc2, he2, hcore2, him2, hsk2, hpc2, hif2, hid2⟩ :=
      cycle_body_straight p (junk (cycle + 1)) j s1 t1 (2 - 1) b hb hsk1
        (by rw [hid1, hIF]) hcore1
    have hm1 := shift_and_fetch_miss (junk (cycle + 1)) s1 hmiss1
    rw [next_remaining_nop _ _ hm1.1, if_neg (by decide)] at hc2
    refine ⟨s2, t2, ?_, ?_, ?_, hcore2⟩
    · show cycle_loop_on p junk (fuel + 2 + 1) cycle s INT32_MAX = _
      rw [cycle_loop_on_step p junk (fuel + 2) cycle s s1 INT32_MAX (2 - 1) (by decide) hc1,
        cycle_loop_on_step p junk (fuel + 1) (cycle + 1) s1 s2 (2 - 1) (2 - 1 - 1)
          (by decide) hc2,
        cycle_loop_on_halt p junk fuel (cycle + 1 + 1) s2 (2 - 1 - 1) (by decide)]
      rfl
    · rw [hpc2, hm1.2, hpc1, hm.2, hpc]
      rfl
    · simp only [List.map, execute_program_on, he1, he2]
  | cons w rest ih =>
    intro done s t a b cycle fuel hrest ha hb hmem hpc hlen hsk hID hIF hcore
    have hwv : straight_line_word w := hrest w (List.mem_cons_self _ _)
    have hlen' : done.length + (rest.length + 1) ≤ 1024 := by
      simpa using hlen
    have hfetch : s.instruction_memory s.PC = w := by
      rw [hmem, hpc]
      show (done ++ w :: rest).getD done.length 0 = w
      rw [List.getD_append_right _ _ _ _ (Nat.le_refl _), Nat.sub_self]
      rfl
    have hpc_lt : s.PC < 1024 := by omega
    obtain ⟨s1, t1, hc1, he1, hcore1, him1, hsk1, hpc1, hif1, hid1⟩ :=
      cycle_body_straight p (junk cycle) j s t INT32_MAX a ha hsk hID hcore
    have hh := shift_and_fetch_hit (junk cycle) s hpc_lt (by rw [hfetch]; exact hwv.1)
    have hIF1 : s1.IF_buffer = w := by rw [hif1, hh]; exact hfetch
    have hPC1 : s1.PC = (done ++ [w]).length := by
      rw [hpc1, hh, List.length_append]
      show s.PC + 1 = done.length + 1
      rw [hpc]
    rw [next_remaining_hit _ _ (by rw [← hif1, hIF1]; exact hwv.2.1)] at hc1
    obtain ⟨s2, t2, hl, hpc2, he2, hcore2⟩ :=
      ih (done ++ [w]) s1 t1 b w (cycle + 1) fuel
        (fun x hx => hrest x (List.mem_cons_of_mem _ hx)) hb (Or.inr hwv)
        (by rw [him1, hmem, List.append_assoc]; rfl) hPC1
        (by rw [List.length_append]; simp only [List.length_singleton]; omega)
        hsk1 (by rw [hid1, hIF]) hIF1 hcore1
    refine ⟨s2, t2, ?_, ?_, ?_, hcore2⟩
    · have e1 : fuel + (w :: rest).length + 3 = (fuel + rest.length + 3) + 1 := by
        simp only [List.length_cons]; omega
      have e2 : cycle + (w :: rest).length + 2 = cycle + 1 + rest.length + 2 := by
        simp only [List.length_cons]; omega
      rw [e1, e2,
        cycle_loop_on_step p junk (fuel + rest.length + 3) cycle s s1 INT32_MAX INT32_MAX
          (by decide) hc1]
      exact hl
    · rw [hpc2, List.length_append, List.length_singleton, List.length_cons]
      omega
    · simp only [List.map, execute_program_on, he1]
      simpa only [List.map, execute_program_on] using he2

/-- Where the loop body is defined without a platform, it yields the same on any
platform. -/
theorem cycle_body_on_of_defined (p : Platform) (junk : DecodedInstruction) (m : Machine)
    (remaining : Int) (x : Machine × Int) (h : cycle_body junk m remaining = some x) :
    cycle_body_on p junk m remaining = some x := by
  rw [cycle_body_eq] at h
  rw [cycle_body_on_eq]
  split
  · rename_i hs
    rw [if_pos hs] at h
    exact h
  · rename_i hs
    rw [if_neg hs] at h
    split
    · rename_i he
      rw [if_pos he] at h
      exact h
    · rename_i he
      rw [if_neg he] at h
      cases hx : execute_instruction (shift_and_fetch junk m).EX_buffer
          (shift_and_fetch junk m) with
      | none => rw [hx] at h; cases h
      | some m1 =>
        rw [hx] at h
        rw [execute_instruction_on_of_defined p _ _ m1 hx]
        exact h

/-- A run that halts without a platform halts in the same state after the same
number of cycles on any platform. -/
theorem cycle_loop_on_of_halted (p : Platform) (junk : Nat → DecodedInstruction) :
    ∀ (fuel cycle : Nat) (m : Machine) (remaining : Int) (m2 : Machine) (n : Nat),
      cycle_loop junk fuel cycle m remaining = RunResult.halted m2 n →
      cycle_loop_on p junk fuel cycle m remaining = RunResult.halted m2 n := by
  intro fuel
  induction fuel with
  | zero =>
    intro cycle m remaining m2 n h
    simp only [cycle_loop] at h
    cases h
  | succ fuel ih =>
    intro cycle m remaining m2 n h
    simp only [cycle_loop] at h
    simp only [cycle_loop_on]
    split at h
    · rename_i hpos
      rw [if_pos hpos]
      cases hb : cycle_body (junk cycle) m remaining with
      | none => rw [hb] at h; cases h
      | some x =>
        obtain ⟨m1, r1⟩ := x
        rw [hb] at h
        rw [cycle_body_on_of_defined p _ _ _ _ hb]
        exact ih _ _ _ _ _ h
    · rename_i hpos
      rw [if_neg hpos]
      exact h

/-! ## Pipeline and sequential execution -/

/-- C21: for every `n` in 0..1024 and words `w_0 .. w_(n-1)` loaded at addresses
0..n-1 with the rest of instruction memory zero, where no word is 0 or 0xFFFF, none
has opcode 4 (BEQZ), 7 (BR) or 10 (LDR), and every STR address is in range,
`run_pipeline` started with `PC = 0` runs exactly `n + 2` cycles (given fuel for
them), ends with `PC = n`, and its final registers, flags and data memory are those
obtained by executing the decodings of `w_0, ..., w_(n-1)` one after another in
program order. This holds for every SAL and SAR shift amount 0..63, on every
platform. -/
theorem pipeline_equals_sequential (p : Platform) (junk : Nat → DecodedInstruction)
    (j : DecodedInstruction) (fuel : Nat) (ws : List Nat) (m : Machine)
    (hn : ws.length ≤ 1024)
    (hmem : m.instruction_memory = fun i => ws.getD i 0)
    (hpc : m.PC = 0)
    (hw : ∀ w ∈ ws, w ≠ 0 ∧ w ≠ 0xFFFF ∧ OPCODE w ≠ 4 ∧ OPCODE w ≠ 7 ∧ OPCODE w ≠ 10 ∧
      (OPCODE w = 11 → IMM_VALUE w < 32)) :
    ∃ m2 mseq : Machine,
      run_pipeline_on p junk (fuel + ws.length + 3) m
        = RunResult.halted m2 (ws.length + 2) ∧
      m2.PC = ws.length ∧
      execute_program_on p (ws.map (decode_instruction j)) m = some mseq ∧
      m2.GPR = mseq.GPR ∧ m2.SREG = mseq.SREG ∧ m2.data_memory = mseq.data_memory := by
  obtain ⟨s2, t2, hl, hpc2, he, hc⟩ :=
    straight_line_loop p junk j ws []
      { m with skipped := 0, IF_buffer := NOP_INSTR, ID_buffer := NOP_INSTR,
               EX_buffer := ⟨0xFF, 0, 0, 0, 0⟩ }
      m 0xFFFF 0xFFFF 0 fuel (fun w h => hw w h) (Or.inl rfl) (Or.inl rfl)
      (by rw [List.nil_append]; exact hmem) (by rw [List.length_nil]; exact hpc)
      (by rw [List.length_nil]; omega) rfl rfl rfl ⟨rfl, rfl, rfl⟩
  refine ⟨s2, t2, ?_, ?_, ?_, hc.1, hc.2.1, hc.2.2⟩
  · rw [Nat.zero_add] at hl
    exact hl
  · rw [hpc2, List.length_nil, Nat.zero_add]
  · simp only [List.map, execute_program_on, execute_on_decode_NOP] at he
    exact he

/-- The pipeline theorem at the twelve-word sample program, whose last two words
shift by 33 and by 32, on a platform that masks shift counts: the run takes 14
cycles and ends with `PC = 12`, `R1 = 1`, `R2 = 3`, `R3 = 28` and data cell 6
holding 7; and the run of `MOVI R1, 1; SAL R1, 32` takes 4 cycles and ends with
`PC = 2` and `R1 = 1`. -/
theorem pipeline_equals_sequential_witness :
    (straight_line_sample.length ≤ 1024 ∧
     (with_program straight_line_sample).instruction_memory
        = (fun i => straight_line_sample.getD i 0) ∧
     (with_program straight_line_sample).PC = 0 ∧
     (∀ w ∈ straight_line_sample,
        w ≠ 0 ∧ w ≠ 0xFFFF ∧ OPCODE w ≠ 4 ∧ OPCODE w ≠ 7 ∧ OPCODE w ≠ 10 ∧
        (OPCODE w = 11 → IMM_VALUE w < 32))) ∧
    (∃ m2 mseq : Machine,
      run_pipeline_on masking_platform (fun _ => ⟨0, 0, 0, 0, 0⟩)
          (0 + straight_line_sample.length + 3) (with_program straight_line_sample)
        = RunResult.halted m2 (straight_line_sample.length + 2) ∧
      m2.PC = straight_line_sample.length ∧
      execute_program_on masking_platform
          (straight_line_sample.map (decode_instruction ⟨0, 0, 0, 0, 0⟩))
          (with_program straight_line_sample)
        = some mseq ∧
      m2.GPR = mseq.GPR ∧ m2.SREG = mseq.SREG ∧ m2.data_memory = mseq.data_memory) ∧
    (final_cycles (run_pipeline_on masking_platform (fun _ => ⟨0, 0, 0, 0, 0⟩) 15
        (with_program straight_line_sample)) = some 14 ∧
     (final_state (run_pipeline_on masking_platform (fun _ => ⟨0, 0, 0, 0, 0⟩) 15
        (with_program straight_line_sample))).map
        (fun m2 => (m2.PC, m2.GPR 1, m2.GPR 2, m2.GPR 3, m2.data_memory 6))
        = some (12, 1, 3, 28, 7) ∧
     (execute_program_on masking_platform
        (straight_line_sample.map (decode_instruction ⟨0, 0, 0, 0, 0⟩))
        (with_program straight_line_sample)).map
        (fun m2 => (m2.GPR 1, m2.GPR 2, m2.GPR 3, m2.data_memory 6))
        = some (1, 3, 28, 7) ∧
     final_cycles (run_pipeline_on masking_platform (fun _ => ⟨0, 0, 0, 0, 0⟩) 5
        (with_program [0x3041, 0x8060])) = some 4 ∧
     (final_state (run_pipeline_on masking_platform (fun _ => ⟨0, 0, 0, 0, 0⟩) 5
        (with_program [0x3041, 0x8060]))).map (fun m2 => (m2.PC, m2.GPR 1))
        = some (2, 1)) :=
  ⟨⟨by decide, rfl, rfl, by decide⟩,
   pipeline_equals_sequential masking_platform (fun _ => ⟨0, 0, 0, 0, 0⟩) ⟨0, 0, 0, 0, 0⟩ 0
     straight_line_sample (with_program straight_line_sample)
     (by decide) rfl rfl (by decide),
   by decide⟩

/-! ## ADD flags against exact integer arithmetic -/

/-- C22: for all signed 8-bit operands `a = R[r1]` and `b = R[r2]`, after ADD the
Overflow flag V is 1 exactly when the mathematical sum `a + b` lies outside
-128..127, and the Sign flag, which is N XOR V, is 1 exactly when the mathematical
sum `a + b` is negative, whether or not the stored 8-bit result has wrapped. -/
theorem ADD_flags_exact (m : Machine) (r1 r2 immshift : Nat) (imm : Int)
    (h1 : r1 < 64) (h2 : r2 < 64)
    (ha : -128 ≤ m.GPR r1 ∧ m.GPR r1 ≤ 127) (hb : -128 ≤ m.GPR r2 ∧ m.GPR r2 ≤ 127) :
    ∃ m1 : Machine,
      execute_instruction ⟨0, r1, r2, immshift, imm⟩ m = some m1 ∧
      m1.SREG.V = (if m.GPR r1 + m.GPR r2 < -128 ∨ 127 < m.GPR r1 + m.GPR r2
                    then 1 else 0) ∧
      m1.SREG.S = m1.SREG.N ^^^ m1.SREG.V ∧
      m1.SREG.S = (if m.GPR r1 + m.GPR r2 < 0 then 1 else 0) := by
  refine ⟨_, execute_ADD_eq m r1 r2 immshift imm h1 h2 ha hb, ?_, ?_, ?_⟩
  · dsimp only
    unfold to_int8
    split_ifs <;> first | rfl | (exfalso; omega)
  · dsimp only
    split_ifs <;> rfl
  · dsimp only
    unfold to_int8
    split_ifs <;> first | rfl | (exfalso; omega)

/-- The exact-arithmetic theorem at `R1 = 100`, `R2 = 100`: the sum 200 is out of
range and not negative, the stored result wraps to -56, and the flags are `V = 1`,
`N = 1`, `S = 0`; at `R1 = R2 = -100` the sum -200 gives `V = 1`, `N = 0`,
`S = 1`. -/
theorem ADD_flags_exact_witness :
    ((1 : Nat) < 64 ∧ (2 : Nat) < 64 ∧
     (-128 ≤ (with_R1_R2 100 100).GPR 1 ∧ (with_R1_R2 100 100).GPR 1 ≤ 127) ∧
     (-128 ≤ (with_R1_R2 100 100).GPR 2 ∧ (with_R1_R2 100 100).GPR 2 ≤ 127)) ∧
    (∃ m1 : Machine,
      execute_instruction ⟨0, 1, 2, 0, 0⟩ (with_R1_R2 100 100) = some m1 ∧
      m1.SREG.V = (if (with_R1_R2 100 100).GPR 1 + (with_R1_R2 100 100).GPR 2 < -128 ∨
                      127 < (with_R1_R2 100 100).GPR 1 + (with_R1_R2 100 100).GPR 2
                    then 1 else 0) ∧
      m1.SREG.S = m1.SREG.N ^^^ m1.SREG.V ∧
      m1.SREG.S = (if (with_R1_R2 100 100).GPR 1 + (with_R1_R2 100 100).GPR 2 < 0
                    then 1 else 0)) ∧
    ((execute_instruction ⟨0, 1, 2, 0, 0⟩ (with_R1_R2 100 100)).map
        (fun m1 => (m1.GPR 1, m1.SREG.V, m1.SREG.N, m1.SREG.S))
        = some (-56, 1, 1, 0) ∧
     (execute_instruction ⟨0, 1, 2, 0, 0⟩ (with_R1_R2 (-100) (-100))).map
        (fun m1 => (m1.GPR 1, m1.SREG.V, m1.SREG.N, m1.SREG.S))
        = some (56, 1, 0, 1)) :=
  ⟨⟨by decide, by decide, by decide, by decide⟩,
   ADD_flags_exact (with_R1_R2 100 100) 1 2 0 0 (by decide) (by decide)
     (by decide) (by decide),
   by decide⟩

end MipsSim
